import Mathlib

/-!
Verification of the GameScout scraping pipeline specification against the
source.  The Python sources are shallowly embedded below: strings are lists
of characters, Python string methods are re-implemented as executable
functions, the SQLite-backed store is a list of rows, and network fetches
are oracles passed in as parameters.  Definitions mirror the functions in
`src/modules/` and `src/main.py`; theorems settle the specification claims.
-/

namespace GameScout

/-- Strings are modelled as lists of characters; Python string operations
are re-implemented explicitly below. -/
abbrev Str := List Char

/-- Shorthand turning a Lean string literal into the `Str` model. -/
def str (s : String) : Str := s.data

/-- Prefix test: `isPre pat s` is true when `pat` is a prefix of `s`
(Python `s.startswith(pat)`). -/
def isPre : Str → Str → Bool
  | [], _ => true
  | _ :: _, [] => false
  | a :: as, b :: bs => a == b && isPre as bs

/-- Substring occurrence test (Python `pat in s`). -/
def containsSub (pat : Str) : Str → Bool
  | [] => pat.isEmpty
  | c :: rest => isPre pat (c :: rest) || containsSub pat rest

/-- Suffix test (Python `s.endswith(pat)`). -/
def isSuf (pat s : Str) : Bool := isPre pat.reverse s.reverse

/-- Python `s.split(pat)[0]`: the part of `s` before the first occurrence of
`pat`, or all of `s` when `pat` does not occur. -/
def takeBefore (pat : Str) : Str → Str
  | [] => []
  | c :: rest => if isPre pat (c :: rest) then [] else c :: takeBefore pat rest

/-- The part of `s` after the first occurrence of `pat` (empty when `pat`
does not occur). -/
def afterFirst (pat : Str) : Str → Str
  | [] => []
  | c :: rest =>
    if isPre pat (c :: rest) then (c :: rest).drop pat.length else afterFirst pat rest

def afterLastAux (pat : Str) : Nat → Str → Str
  | 0, s => s
  | n + 1, s => if containsSub pat s then afterLastAux pat n (afterFirst pat s) else s

/-- Python `s.split(pat)[-1]`: the part after the last (non-overlapping)
occurrence of `pat`; `s.length` rounds of fuel suffice since each step
strictly shortens the string. -/
def afterLastSplit (pat : Str) (s : Str) : Str := afterLastAux pat s.length s

def pyReplaceFuel (pat rep : Str) : Nat → Str → Str
  | _, [] => []
  | 0, s => s
  | n + 1, c :: rest =>
    if !pat.isEmpty && isPre pat (c :: rest) then
      rep ++ pyReplaceFuel pat rep n (rest.drop (pat.length - 1))
    else
      c :: pyReplaceFuel pat rep n rest

/-- Python `s.replace(pat, rep)`: replace every non-overlapping occurrence
of `pat`, scanning left to right.  Every step consumes at least one
character, so `s.length` rounds of fuel always complete the scan (the
fuel-irrelevance lemma `pyReplaceFuel_congr` below makes this precise).
Python's special behaviour on an empty pattern is never exercised by this
code base; an empty pattern leaves `s` unchanged here. -/
def pyReplace (pat rep s : Str) : Str := pyReplaceFuel pat rep s.length s

/-- `cannotStart a pat` guarantees that no occurrence of `pat` can begin
inside `a`, whatever string is appended after `a`. -/
def cannotStart (a pat : Str) : Bool :=
  match a with
  | [] => true
  | _ :: rest =>
    (if pat.length ≤ a.length then !isPre pat a else !(a == pat.take a.length)) &&
      cannotStart rest pat

/-- ASCII whitespace, the characters Python `str.strip()` removes. -/
def isPyWs (c : Char) : Bool :=
  c == ' ' || c == '\t' || c == '\n' || c == '\r' || c == '\x0b' || c == '\x0c'

/-- Quote characters, for Python `str.strip('"\'')`. -/
def isQuoteChar (c : Char) : Bool := c == '"' || c == '\''

/-- Remove the longest suffix of characters satisfying `p`. -/
def rstripBy (p : Char → Bool) (s : Str) : Str := (s.reverse.dropWhile p).reverse

/-- Python `s.strip()` (ASCII whitespace). -/
def stripWs (s : Str) : Str := rstripBy isPyWs (s.dropWhile isPyWs)

/-- Python `s.strip('"\'')`. -/
def stripQuotes (s : Str) : Str := rstripBy isQuoteChar (s.dropWhile isQuoteChar)

/-- Python `s.lower()` (case folding via `Char.toLower`). -/
def toLowerStr (s : Str) : Str := s.map Char.toLower

/-! URL normalisation: `GameScraper.clean_iframe_url` (game_scraper.py:567-698)
and `ArmorGamesScraper.clean_embed_url` (armorgames_scraper.py:438-455). -/

/-- The chain of HTML-escape and backslash replacements of
game_scraper.py:582-583. -/
def escStage (raw : Str) : Str :=
  pyReplace (str "\\") [] (pyReplace (str "\\\"") (str "\"") (pyReplace (str "\\/") (str "/")
    (pyReplace (str "&gt;") (str ">") (pyReplace (str "&lt;") (str "<")
      (pyReplace (str "&amp;") (str "&") (pyReplace (str "&quot;") (str "\"") raw))))))

/-- Escape cleaning followed by the strips of game_scraper.py:586. -/
def cleanEsc (raw : Str) : Str := stripQuotes (stripWs (escStage raw))

def ihSeg : Str := str "/index.html"

def ihDup : Str := str "/index.html/index.html"

def ihDupSlash : Str := str "/index.html/index.html/"

def ihSegSlash : Str := str "/index.html/"

def collapseFuel : Nat → Str → Str
  | 0, s => s
  | n + 1, s => if containsSub ihDup s then collapseFuel n (pyReplace ihDup ihSeg s) else s

/-- The `while '/index.html/index.html' in url:` loop of
game_scraper.py:607-609.  Each iteration shortens the string by at least 11
characters, so `s.length` rounds of fuel always reach the loop's exit
condition (proved below as `collapseDupLoop_no_dup`). -/
def collapseDupLoop (s : Str) : Str := collapseFuel s.length s

/-- `k` concatenated copies of the `/index.html` segment — the duplicated
trailing-segment families the collapse loop is specified over. -/
def reps : Nat → Str
  | 0 => []
  | n + 1 => ihSeg ++ reps n

/-- The two one-shot duplicate fixes of game_scraper.py:597-604 that run
before the while loop. -/
def dupFixStage (u : Str) : Str :=
  if isSuf ihDup u then pyReplace ihDup ihSeg u
  else if containsSub ihDupSlash u then pyReplace ihDupSlash ihSegSlash u
  else u

/-- The `?v=` parameter strip of game_scraper.py:591-593. -/
def stripVParam (u : Str) : Str :=
  if containsSub (str "?v=") u then takeBefore (str "?v=") u else u

/-- The whole `if 'itch.zone' in url:` block of game_scraper.py:589-609. -/
def itchStage (u : Str) : Str :=
  if containsSub (str "itch.zone") u then collapseDupLoop (dupFixStage (stripVParam u)) else u

def excludeKeywords : List Str :=
  [str "youtube", str "twitter", str "facebook", str "instagram", str "discord", str "github"]

/-- The non-game keyword exclusion of game_scraper.py:616-618. -/
def excludesHit (u : Str) : Bool := excludeKeywords.any (fun kw => containsSub kw (toLowerStr u))

/-- The scheme completion of game_scraper.py:621-625. -/
def ensureHttp (u : Str) : Str :=
  if isPre (str "http") u then u
  else if isPre (str "//") u then str "https:" ++ u
  else str "https://" ++ u

def litMain : Str := str "https://html-classic.itch.zone/html/"

def litRepair : Str := str "html-classic.itch.zone/html/"

/-- Case-insensitive prefix test against an already-lower-case literal
(models `re.IGNORECASE` literal matching). -/
def ciHasPre (lit s : Str) : Bool := isPre lit (toLowerStr s)

/-- A character admitted by the regex class `[^/\s"'&]`. -/
def segChar (c : Char) : Bool := !(c == '/' || isPyWs c || c == '"' || c == '\'' || c == '&')

/-- The anchored pattern
`^https://html-classic\.itch\.zone/html/\d+/[^/\s"'&]+/index\.html$`
of game_scraper.py:632, matched with `re.IGNORECASE` (the input is already
stripped, so `$` is a strict end anchor; `\d` is modelled as ASCII digits). -/
def matchesPatternOne (s : Str) : Bool :=
  ciHasPre litMain s &&
    (let r1 := s.drop litMain.length
     let d := r1.takeWhile Char.isDigit
     !d.isEmpty &&
       (match r1.drop d.length with
        | '/' :: r3 =>
          let seg := r3.takeWhile segChar
          !seg.isEmpty && toLowerStr (r3.drop seg.length) == ihSeg
        | _ => false))

/-- The anchored pattern `^https://html-classic\.itch\.zone/html/\d+/index\.html$`
of game_scraper.py:633 (IGNORECASE, same conventions). -/
def matchesPatternTwo (s : Str) : Bool :=
  ciHasPre litMain s &&
    (let r1 := s.drop litMain.length
     let d := r1.takeWhile Char.isDigit
     !d.isEmpty && toLowerStr (r1.drop d.length) == ihSeg)

/-- One attempt of `re.search(r'html-classic\.itch\.zone/html/(\d+)/(.+)', url,
re.IGNORECASE)` anchored at the current position: the literal matches
case-insensitively, `\d+` is a maximal digit run that must be followed by
`/`, and `.+` (no DOTALL) captures a non-empty run up to the next newline. -/
def repairTryAt (s : Str) : Option (Str × Str) :=
  if ciHasPre litRepair s then
    let r1 := s.drop litRepair.length
    let d := r1.takeWhile Char.isDigit
    if d.isEmpty then none
    else
      match r1.drop d.length with
      | '/' :: r3 =>
        let pp := r3.takeWhile (fun x => !(x == '\n'))
        if pp.isEmpty then none else some (d, pp)
      | _ => none
  else none

/-- `re.search` over the whole string: first position (scanning left to
right) where `repairTryAt` succeeds, as in game_scraper.py:644. -/
def repairScan : Str → Option (Str × Str)
  | [] => none
  | c :: rest =>
    match repairTryAt (c :: rest) with
    | some r => some r
    | none => repairScan rest

def ihName : Str := str "index.html"

def ihNameDup : Str := str "index.html/index.html"

/-- The repair branches of game_scraper.py:649-683, rebuilding a canonical
URL from the captured id `gid` and path `pp`. -/
def repairUrl (gid pp : Str) : Str :=
  if pp == ihName then litMain ++ gid ++ ihSeg
  else if pp == ihNameDup then litMain ++ gid ++ ihSeg
  else if isSuf ihDup pp then litMain ++ gid ++ ('/' :: pyReplace ihDup [] pp) ++ ihSeg
  else if !isSuf ihSeg pp then
    (if !(pp == ihName) then litMain ++ gid ++ ('/' :: pp) ++ ihSeg
     else litMain ++ gid ++ ihSeg)
  else litMain ++ gid ++ ('/' :: pp)

/-- A character allowed inside a URL scheme by `urllib.parse`. -/
def schemeChar (c : Char) : Bool := c.isAlpha || c.isDigit || c == '+' || c == '-' || c == '.'

/-- Split a string at its first colon. -/
def splitAtColon : Str → Option (Str × Str)
  | [] => none
  | c :: rest =>
    if c == ':' then some ([], rest)
    else
      match splitAtColon rest with
      | some (a, b) => some (c :: a, b)
      | none => none

/-- The `parsed.netloc and parsed.scheme` truthiness check of
game_scraper.py:689-690: a valid non-empty scheme before the first colon,
followed by `//` and a non-empty authority component. -/
def urlHasSchemeNetloc (s : Str) : Bool :=
  match splitAtColon s with
  | none => false
  | some (sch, rest) =>
    (match sch with
     | [] => false
     | c :: cs => c.isAlpha && cs.all schemeChar) &&
    isPre (str "//") rest &&
    !((rest.drop 2).takeWhile (fun c => !(c == '/' || c == '?' || c == '#'))).isEmpty

/-- The branch cascade of game_scraper.py:611-694 applied to the cleaned
URL: domain and keyword gates, scheme completion, then pattern match /
repair / other-itch.zone-domain acceptance. -/
def classifyStage (u2 : Str) : Option Str :=
  if !containsSub (str "itch.zone") u2 then none
  else if excludesHit u2 then none
  else
    let u3 := ensureHttp u2
    if matchesPatternOne u3 || matchesPatternTwo u3 then some u3
    else if containsSub (str "html-classic.itch.zone") u3 then
      match repairScan u3 with
      | some (gid, pp) => some (repairUrl gid pp)
      | none => none
    else if containsSub (str ".itch.zone") u3 then
      (if urlHasSchemeNetloc u3 then some u3 else none)
    else none

/-- `GameScraper.clean_iframe_url` (game_scraper.py:567-698): escape
cleaning, itch.zone-specific `?v=` stripping and duplicate `/index.html`
collapsing, then the classification cascade.  The surrounding `try/except`
returns `None` only on interpreter exceptions, which the embedded pure
functions cannot raise. -/
def clean_iframe_url (raw : Str) : Option Str :=
  if raw.isEmpty then none
  else classifyStage (itchStage (cleanEsc raw))

/-- Lift of `clean_iframe_url` to an optional argument: Python's
`clean_iframe_url(None)` returns `None` through the `if not raw_url` guard,
so composing the cleaner with its own optional result is total. -/
def clean_iframe_url_opt : Option Str → Option Str
  | none => none
  | some s => clean_iframe_url s

/-- `ArmorGamesScraper.clean_embed_url` (armorgames_scraper.py:438-455):
only the `?v=` parameter is removed. -/
def clean_embed_url (u : Str) : Str :=
  if u.isEmpty then u
  else if containsSub (str "?v=") u then takeBefore (str "?v=") u
  else u

/-! The deduplicating store: `DataManager` (data_manager.py).  The SQLite
table `games` (UNIQUE(url, platform), data_manager.py:37-48) is modelled as
a list of rows; `INSERT OR REPLACE` deletes the conflicting row and appends
the new one.  Timestamps are modelled as naturals: the source stores
zero-padded `'%Y-%m-%d %H:%M:%S'` strings whose lexicographic order agrees
with chronological order, so `≥` on naturals mirrors the SQL string
comparison.  The mirrored JSON sink (data_manager.py:171-184) duplicates the
table for recovery only and is not modelled. -/

/-- An input record (a Python game dict): absent `platform` / `scraped_at`
keys are `none`; the string fields default to the empty string. -/
structure GameRec where
  name : Str
  url : Str
  embed_url : Str
  iframe_url : Str
  platform : Option Str
  scraped_at : Option Nat
deriving DecidableEq, Repr

/-- A row of the `games` table. -/
structure DbRow where
  name : Str
  url : Str
  embed_url : Str
  iframe_url : Str
  platform : Str
  scraped_at : Nat
deriving DecidableEq, Repr

/-- Stats dict returned by the store's write operations. -/
structure SaveStats where
  saved : Nat
  duplicates : Nat
  total : Nat
deriving DecidableEq, Repr

/-- Truthiness-plus-placeholder test of data_manager.py:73-74:
`u and u.strip() and u not in ['null', 'None']`. -/
def usableStr (u : Str) : Bool :=
  !(stripWs u).isEmpty && !(u == str "null") && !(u == str "None")

/-- A record passes the validity filter of `save_games` when either URL
field is usable (data_manager.py:73-74). -/
def usableGame (g : GameRec) : Bool := usableStr g.iframe_url || usableStr g.embed_url

/-- The field-defaulting of data_manager.py:75-91: missing `scraped_at`
becomes the current time, missing `platform` becomes the `platform`
argument, or `'itch.io'` when that is absent too. -/
def fillGame (platform : Option Str) (now : Nat) (g : GameRec) : GameRec :=
  { g with
    scraped_at := some (g.scraped_at.getD now),
    platform := some (g.platform.getD (platform.getD (str "itch.io"))) }

/-- Row built by `save_to_database` (data_manager.py:193-203) from a record,
with its `.get` defaults. -/
def mkRow (now : Nat) (g : GameRec) : DbRow :=
  { name := g.name, url := g.url, embed_url := g.embed_url, iframe_url := g.iframe_url,
    platform := g.platform.getD (str "itch.io"), scraped_at := g.scraped_at.getD now }

/-- `INSERT OR REPLACE` under `UNIQUE(url, platform)`: the conflicting row
(if any) is removed and the new row inserted. -/
def insertOrReplace (db : List DbRow) (r : DbRow) : List DbRow :=
  db.filter (fun q => !(q.url == r.url && q.platform == r.platform)) ++ [r]

/-- `DataManager.save_to_database` (data_manager.py:186-207). -/
def save_to_database (now : Nat) (db : List DbRow) (games : List GameRec) : List DbRow :=
  games.foldl (fun d g => insertOrReplace d (mkRow now g)) db

/-- The existing-name query of data_manager.py:129-136: names of stored rows
(for the given platform, or all rows), stripped and lower-cased. -/
def existingNamesFor (platform : Option Str) (db : List DbRow) : List Str :=
  ((match platform with
    | some p => db.filter (fun r => r.platform == p)
    | none => db) : List DbRow).map (fun r => toLowerStr (stripWs r.name))

/-- The per-record dedup loop of data_manager.py:139-152: blank-named
records are skipped entirely; a record whose stripped lower-cased name is
already known counts as a duplicate; otherwise it is kept and its name added
to the known set.  Returns (kept records, saved count, duplicate count). -/
def dedupLoop (existing : List Str) : List GameRec → List GameRec × Nat × Nat
  | [] => ([], 0, 0)
  | g :: rest =>
    if (stripWs g.name).isEmpty then dedupLoop existing rest
    else if existing.contains (toLowerStr (stripWs g.name)) then
      ((dedupLoop existing rest).1, (dedupLoop existing rest).2.1,
        (dedupLoop existing rest).2.2 + 1)
    else
      (g :: (dedupLoop (toLowerStr (stripWs g.name) :: existing) rest).1,
        (dedupLoop (toLowerStr (stripWs g.name) :: existing) rest).2.1 + 1,
        (dedupLoop (toLowerStr (stripWs g.name) :: existing) rest).2.2)

/-- `DataManager.save_with_deduplication` (data_manager.py:112-169). -/
def save_with_deduplication (games : List GameRec) (platform : Option Str)
    (db : List DbRow) (now : Nat) : SaveStats × List DbRow :=
  let r := dedupLoop (existingNamesFor platform db) games
  (⟨r.2.1, r.2.2, games.length⟩, if r.1.isEmpty then db else save_to_database now db r.1)

/-- `DataManager.save_games` (data_manager.py:54-110), the store's write
operation: filter to records with a usable URL, default the missing fields,
then dedup-save; with no valid record the zeroed stats are returned. -/
def save_games (games : List GameRec) (platform : Option Str)
    (db : List DbRow) (now : Nat) : SaveStats × List DbRow :=
  let valid := (games.filter usableGame).map (fillGame platform now)
  if valid.isEmpty then (⟨0, 0, games.length⟩, db)
  else save_with_deduplication valid platform db now

/-! A failing-backend variant for the persistence-error claim.  The only
failure path the source leaves open is the per-row `try/except` inside
`save_to_database` (data_manager.py:191-205): a failing `INSERT` is logged
and skipped, every other row still committed.  `fails` lists the URLs whose
insert raises; the returned counter records how many insert attempts were
made (each row is attempted exactly once — there is no retry loop). -/

/-- Per-row insert with a possible storage failure: the row is attempted
once; on failure the table is left unchanged. -/
def insertOrReplaceF (fails : List Str) (db : List DbRow) (r : DbRow) : List DbRow :=
  if fails.contains r.url then db else insertOrReplace db r

/-- `save_to_database` against a failing backend, counting insert attempts. -/
def save_to_databaseF (fails : List Str) (now : Nat) (db : List DbRow)
    (games : List GameRec) : List DbRow × Nat :=
  games.foldl (fun (p : List DbRow × Nat) g => (insertOrReplaceF fails p.1 (mkRow now g), p.2 + 1))
    (db, 0)

/-- `save_with_deduplication` against a failing backend. -/
def save_with_deduplicationF (fails : List Str) (games : List GameRec) (platform : Option Str)
    (db : List DbRow) (now : Nat) : SaveStats × List DbRow × Nat :=
  let r := dedupLoop (existingNamesFor platform db) games
  (⟨r.2.1, r.2.2, games.length⟩,
    if r.1.isEmpty then (db, 0) else save_to_databaseF fails now db r.1)

/-- `save_games` against a failing backend: the caller still receives an
ordinary stats dict — no exception propagates out of the write. -/
def save_gamesF (fails : List Str) (games : List GameRec) (platform : Option Str)
    (db : List DbRow) (now : Nat) : SaveStats × List DbRow × Nat :=
  let valid := (games.filter usableGame).map (fillGame platform now)
  if valid.isEmpty then (⟨0, 0, games.length⟩, db, 0)
  else save_with_deduplicationF fails valid platform db now

/-- Two store rows occupy distinct `(url, platform)` keys — the invariant
the `UNIQUE(url, platform)` constraint maintains. -/
def rowKeyDistinct (a b : DbRow) : Prop := ¬(a.url = b.url ∧ a.platform = b.platform)

/-- Platform filter of the read queries (`WHERE platform = ?` when given). -/
def platformMatch (pf : Option Str) (r : DbRow) : Bool :=
  match pf with
  | none => true
  | some p => r.platform == p

/-- Insert into a list sorted by descending timestamp. -/
def insertByTimeDesc (r : DbRow) : List DbRow → List DbRow
  | [] => [r]
  | x :: xs => if x.scraped_at ≤ r.scraped_at then r :: x :: xs else x :: insertByTimeDesc r xs

/-- `ORDER BY scraped_at DESC` (ties in unspecified order, as in SQLite). -/
def sortByTimeDesc : List DbRow → List DbRow
  | [] => []
  | x :: xs => insertByTimeDesc x (sortByTimeDesc xs)

/-- `DataManager.get_recent_games` (data_manager.py:287-336): rows whose
timestamp is at or after `now - hours` (the source compares the formatted
timestamp strings, whose lexicographic order is chronological order),
optionally filtered to one platform, newest first. -/
def get_recent_games (db : List DbRow) (now : Nat) (hours : Nat) (platform : Option Str) :
    List DbRow :=
  sortByTimeDesc (db.filter (fun r =>
    platformMatch platform r && decide (now - hours * 3600 ≤ r.scraped_at)))

/-! Discovery-time listing: `AzGamesScraper.get_all_games_list`
(azgames_scraper.py:160-242) and `ArmorGamesScraper.get_all_games_list`
(armorgames_scraper.py:169-284).  A parsed listing page is modelled as the
list of link elements the CSS selectors produce; attribute lookups that can
miss are `Option`s (an empty attribute string is falsy in Python and is
modelled by `none`-producing truthiness below). -/

/-- Truthiness coercion: an absent or empty string attribute is falsy. -/
def truthy : Option Str → Option Str
  | none => none
  | some s => if s.isEmpty then none else some s

/-- A link element of the AzGames listing grid. -/
structure AzLink where
  href : Option Str
  hasImg : Bool
  imgTitle : Option Str
  imgAlt : Option Str
  spanText : Option Str
deriving DecidableEq, Repr

/-- Name resolution of azgames_scraper.py:209-220: the img title or alt,
else the stripped text of the title span. -/
def azLinkName (l : AzLink) : Option Str :=
  match (if l.hasImg then (truthy l.imgTitle).orElse (fun _ => truthy l.imgAlt) else none) with
  | some n => some n
  | none => truthy (l.spanText.map stripWs)

/-- Relative-path resolution of azgames_scraper.py:201-203 (and the
ArmorGames analogue at armorgames_scraper.py:233-234). -/
def resolveUrl (domain : Str) (h : Str) : Str :=
  if isPre (str "/") h then domain ++ h else h

def azInvalidPatterns : List Str :=
  [str "/category/", str "/tag/", str "/search", str "/user/", str "/about",
   str "/contact", str "/privacy", str "/terms", str "/#", str "javascript:",
   str "mailto:", str "tel:", str "/upload/", str "/static/", str "/css/",
   str "/js/", str "/images/"]

/-- `AzGamesScraper.is_valid_game_entry` (azgames_scraper.py:290-348). -/
def azIsValidGameEntry (name url : Str) : Bool :=
  (2 ≤ name.length) &&
  containsSub (str "azgames.io") url &&
  !(azInvalidPatterns.any (fun p => containsSub p (toLowerStr url))) &&
  (if isPre (str "https://azgames.io/") url then
     let path := url.drop (str "https://azgames.io/").length
     !(containsSub (str "/") path && !(isSuf (str "/") path))
   else if isPre (str "/") url then
     let path := url.drop 1
     !(containsSub (str "/") path && !(isSuf (str "/") path))
   else false)

/-- The candidate loop of `AzGamesScraper.get_all_games_list`
(azgames_scraper.py:189-232): per-link cooperative stop check, href
resolution, URL-level dedup within the run, name resolution, and the
validity gate.  Note that no store is consulted: AzGames discovery performs
no name-based dedup against stored records. -/
def azListLoop (flag : Nat → Bool) : Nat → List Str → List AzLink → List (Str × Str)
  | _, _, [] => []
  | n, pu, l :: rest =>
    if flag n then []
    else
      match l.href with
      | none => azListLoop flag (n + 1) pu rest
      | some h =>
        let url := resolveUrl (str "https://azgames.io") h
        if pu.contains url then azListLoop flag (n + 1) pu rest
        else
          match azLinkName l with
          | none => azListLoop flag (n + 1) pu rest
          | some nm =>
            if azIsValidGameEntry nm url then (nm, url) :: azListLoop flag (n + 1) (url :: pu) rest
            else azListLoop flag (n + 1) pu rest

/-- `AzGamesScraper.get_all_games_list` (azgames_scraper.py:160-242). -/
def az_get_all_games_list (flag : Nat → Bool) (links : List AzLink) : List (Str × Str) :=
  azListLoop flag 0 [] links

/-- Modelled from the spec: `DataManager.normalize_game_name` is called by
the ArmorGames scraper (armorgames_scraper.py:190,259) but its definition is
absent from the sources; the spec (sections 3 and 8) describes it as
case-folded with non-alphanumeric characters stripped. -/
def normalize_game_name (s : Str) : Str := toLowerStr (s.filter Char.isAlphanum)

/-- An `li` item of the ArmorGames listing. -/
structure ArmorItem where
  hasLink : Bool
  href : Option Str
  linkTitle : Option Str
  linkText : Str
  hasImg : Bool
  imgAlt : Option Str
  imgTitle : Option Str
deriving DecidableEq, Repr

/-- Name resolution of armorgames_scraper.py:240-254: link title, else the
stripped link text, else the img alt or title; the result is stripped. -/
def armorItemName (it : ArmorItem) : Option Str :=
  (match (truthy it.linkTitle).orElse (fun _ => truthy (some (stripWs it.linkText))) with
   | some n => some n
   | none =>
     if it.hasImg then (truthy it.imgAlt).orElse (fun _ => truthy it.imgTitle) else none).map stripWs

def armorInvalidPatterns : List Str := azInvalidPatterns ++ [str "/games/date"]

/-- The `/[^/]+-game/\d+` path check of armorgames_scraper.py:333, as a
left-to-right scan: `re.search` succeeds exactly when some position carries
`-game/` followed by a digit and is preceded by a non-empty slash-free run
that itself follows a `/`.  `sinceSlash` is the length of that run (`none`
until the first slash is seen). -/
def armorPathScan (sinceSlash : Option Nat) : Str → Bool
  | [] => false
  | c :: rest =>
    (match sinceSlash with
     | some (_ + 1) =>
       isPre (str "-game/") (c :: rest) && (((c :: rest).drop 6).headD ' ').isDigit
     | _ => false) ||
    armorPathScan (if c == '/' then some 0 else sinceSlash.map (· + 1)) rest

/-- `ArmorGamesScraper.is_valid_game_entry` (armorgames_scraper.py:286-337). -/
def armorIsValidGameEntry (name url : Str) : Bool :=
  (2 ≤ name.length) &&
  containsSub (str "armorgames.com") url &&
  !(armorInvalidPatterns.any (fun p => containsSub p (toLowerStr url))) &&
  armorPathScan none url

/-- The candidate loop of `ArmorGamesScraper.get_all_games_list`
(armorgames_scraper.py:217-274): like the AzGames loop, but additionally
filters out any candidate whose normalised name is already in the existing
cross-platform name set, extending that set as candidates are accepted. -/
def armorListLoop (flag : Nat → Bool) :
    Nat → List Str → List Str → List ArmorItem → List (Str × Str)
  | _, _, _, [] => []
  | n, existing, pu, it :: rest =>
    if flag n then []
    else if !it.hasLink then armorListLoop flag (n + 1) existing pu rest
    else
      match it.href with
      | none => armorListLoop flag (n + 1) existing pu rest
      | some h =>
        let url := resolveUrl (str "https://armorgames.com") h
        if pu.contains url then armorListLoop flag (n + 1) existing pu rest
        else
          match armorItemName it with
          | none => armorListLoop flag (n + 1) existing pu rest
          | some nm =>
            if !nm.isEmpty && armorIsValidGameEntry nm url then
              if existing.contains (normalize_game_name nm) then
                armorListLoop flag (n + 1) existing pu rest
              else
                (nm, url) ::
                  armorListLoop flag (n + 1) (normalize_game_name nm :: existing) (url :: pu) rest
            else armorListLoop flag (n + 1) existing pu rest

/-- `ArmorGamesScraper.get_all_games_list` (armorgames_scraper.py:169-284):
the existing-name index is built from all stored rows across platforms
(`load_games()` + `normalize_game_name`, lines 186-191), then the listing is
scanned. -/
def armor_get_all_games_list (flag : Nat → Bool) (db : List DbRow) (items : List ArmorItem) :
    List (Str × Str) :=
  armorListLoop flag 0 (db.map (fun r => normalize_game_name r.name)) [] items

/-! The per-candidate collection loop with cooperative cancellation:
`AzGamesScraper.scrape_games` (azgames_scraper.py:127-151).  The stop flag
(`stop_flag()` / `should_stop`, set by `GameScoutApp.stop_scraping`,
main.py:762-770) is read at the top of each iteration, indexed by the number
of items already processed; an item, once started, always runs to
completion.  `detail` abstracts `scrape_game_detail` (network fetch plus
extraction), returning `none` when the item is skipped. -/

/-- The result of one collection run: how many items were processed, the
collected records, and the status label the GUI shows afterwards. -/
structure RunResult where
  processed : Nat
  games : List GameRec
  status : Str
deriving Repr

/-- The `for i, (game_name, game_url) in enumerate(game_list)` loop of
azgames_scraper.py:127-151 with its boundary stop check. -/
def scrapeLoop (flag : Nat → Bool) (detail : Str × Str → Option GameRec) :
    Nat → List (Str × Str) → Nat × List GameRec
  | c, [] => (c, [])
  | c, it :: rest =>
    if flag c then (c, [])
    else
      ((scrapeLoop flag detail (c + 1) rest).1,
       match detail it with
       | some g => g :: (scrapeLoop flag detail (c + 1) rest).2
       | none => (scrapeLoop flag detail (c + 1) rest).2)

/-- The status label `run_scraping` leaves on the platform tab when the
worker returns — cancelled or not, the `finally` block of main.py:855-865
always writes the same completion label. -/
def runFinalStatus : Str := str "采集完成"

/-- A whole collection run over an already-truncated candidate list:
the detailing loop of `AzGamesScraper.scrape_games` followed by the
`run_scraping` epilogue (main.py:784-865). -/
def azRun (flag : Nat → Bool) (detail : Str × Str → Option GameRec)
    (items : List (Str × Str)) : RunResult :=
  let (c, gs) := scrapeLoop flag detail 0 items
  ⟨c, gs, runFinalStatus⟩

/-! Detail extraction method (d) — inferring the embed URL from the page's
own slug — for the three platforms that have it.  `head` and `get` are the
network oracles (`session.head` / `session.get`): `some code` is a response
with that status, `none` a raised exception.  The earlier extraction methods
(DOM anchors, regex scans) are abstracted as `earlier : Option Str`: the
claims under test concern only the fall-through branch. -/

/-- A network oracle: HTTP status by URL, `none` when the request raises. -/
abbrev Oracle := Str → Option Nat

/-- Method 3 of `GameFlareScraper.extract_embed_url`
(gameflare_scraper.py:418-425): the embed URL inferred from the
`/online-game/` slug is returned immediately — the oracles are never
consulted (the source makes no request here). -/
def gf_extract_embed_url (_head _get : Oracle) (earlier : Option Str) (game_url : Str) :
    Option Str :=
  match earlier with
  | some u => some u
  | none =>
    if containsSub (str "/online-game/") game_url then
      let slug := rstripBy (fun c => c == '/') (afterLastSplit (str "/online-game/") game_url)
      some (str "https://www.gameflare.com/embed/" ++ slug ++ str "/")
    else none

/-- Method 4 of `AzGamesScraper.extract_embed_url`
(azgames_scraper.py:485-498): the inferred URL is accepted only when a HEAD
request returns status 200; any other status or an exception yields `none` —
there is no GET fallback. -/
def az_extract_embed_url (head _get : Oracle) (earlier : Option Str) (game_url : Str) :
    Option Str :=
  match earlier with
  | some u => some u
  | none =>
    if isPre (str "https://azgames.io/") game_url then
      let embed := str "https://azgames.io/" ++
        pyReplace (str "https://azgames.io/") [] game_url ++ str ".embed"
      if head embed == some 200 then some embed else none
    else none

/-- `ZapGamesScraper.verify_embed_url` (zapgames_scraper.py:459-478): HEAD,
falling back to GET only when HEAD raises; each must return status 200. -/
def zap_verify_embed_url (head get : Oracle) (u : Str) : Bool :=
  match head u with
  | some code => code == 200
  | none =>
    match get u with
    | some code => code == 200
    | none => false

/-! Infrastructure lemmas. -/

theorem pyReplaceFuel_congr (pat rep : Str) :
    ∀ (n m : Nat) (s : Str), s.length ≤ n → s.length ≤ m →
      pyReplaceFuel pat rep n s = pyReplaceFuel pat rep m s := by
  intro n
  induction n with
  | zero =>
    intro m s hn _
    have hs : s = [] := List.length_eq_zero.mp (Nat.le_zero.mp hn)
    cases m <;> simp [hs, pyReplaceFuel]
  | succ n ih =>
    intro m s hn hm
    match s with
    | [] => cases m <;> simp [pyReplaceFuel]
    | c :: rest =>
      cases m with
      | zero => simp at hm
      | succ m' =>
        simp only [pyReplaceFuel]
        split
        · have hd : (rest.drop (pat.length - 1)).length ≤ rest.length := by
            simp only [List.length_drop]
            omega
          have hn' : rest.length ≤ n := by
            simpa using Nat.succ_le_succ_iff.mp hn
          have hm' : rest.length ≤ m' := by
            simpa using Nat.succ_le_succ_iff.mp hm
          exact congrArg (rep ++ ·) (ih m' _ (le_trans hd hn') (le_trans hd hm'))
        · have hn' : rest.length ≤ n := by
            simpa using Nat.succ_le_succ_iff.mp hn
          have hm' : rest.length ≤ m' := by
            simpa using Nat.succ_le_succ_iff.mp hm
          exact congrArg (c :: ·) (ih m' rest hn' hm')

theorem pyReplace_nil (pat rep : Str) : pyReplace pat rep [] = [] := rfl

theorem pyReplace_cons (pat rep : Str) (c : Char) (rest : Str) :
    pyReplace pat rep (c :: rest) =
      if !pat.isEmpty && isPre pat (c :: rest) then
        rep ++ pyReplace pat rep (rest.drop (pat.length - 1))
      else c :: pyReplace pat rep rest := by
  show pyReplaceFuel pat rep (rest.length + 1) (c :: rest) = _
  simp only [pyReplaceFuel]
  split
  · exact congrArg (rep ++ ·)
      (pyReplaceFuel_congr pat rep rest.length (rest.drop (pat.length - 1)).length _
        (by simp only [List.length_drop]; omega) (le_refl _))
  · rfl

theorem mem_insertByTimeDesc (a r : DbRow) (l : List DbRow) :
    a ∈ insertByTimeDesc r l ↔ a = r ∨ a ∈ l := by
  induction l with
  | nil => simp [insertByTimeDesc]
  | cons x xs ih =>
    simp only [insertByTimeDesc]
    split
    · simp
    · simp only [List.mem_cons, ih]
      tauto

theorem mem_sortByTimeDesc (a : DbRow) (l : List DbRow) : a ∈ sortByTimeDesc l ↔ a ∈ l := by
  induction l with
  | nil => simp [sortByTimeDesc]
  | cons x xs ih => simp [sortByTimeDesc, mem_insertByTimeDesc, ih]

theorem scrapeLoop_start_le (flag : Nat → Bool) (detail : Str × Str → Option GameRec) :
    ∀ (items : List (Str × Str)) (c : Nat), c ≤ (scrapeLoop flag detail c items).1 := by
  intro items
  induction items with
  | nil => intro c; simp [scrapeLoop]
  | cons it rest ih =>
    intro c
    by_cases h : flag c = true <;> simp only [scrapeLoop, h, if_true, if_false, Bool.false_eq_true]
    · exact le_refl c
    · exact le_trans (Nat.le_succ c) (ih (c + 1))

theorem scrapeLoop_stops (flag : Nat → Bool) (detail : Str × Str → Option GameRec) (k : Nat)
    (hreq : ∀ c, k + 1 ≤ c → flag c = true) :
    ∀ (items : List (Str × Str)) (c : Nat), c ≤ k + 1 →
      (scrapeLoop flag detail c items).1 ≤ k + 1 := by
  intro items
  induction items with
  | nil => intro c hc; simpa [scrapeLoop] using hc
  | cons it rest ih =>
    intro c hc
    by_cases h : flag c = true <;> simp only [scrapeLoop, h, if_true, if_false, Bool.false_eq_true]
    · exact hc
    · have hlt : c + 1 ≤ k + 1 := by
        rcases Nat.lt_or_ge c (k + 1) with h1 | h1
        · omega
        · exact absurd (hreq c h1) (by simp [h])
      exact ih (c + 1) hlt

theorem scrapeLoop_games (flag : Nat → Bool) (detail : Str × Str → Option GameRec) :
    ∀ (items : List (Str × Str)) (c : Nat),
      (scrapeLoop flag detail c items).2 =
        (items.take ((scrapeLoop flag detail c items).1 - c)).filterMap detail := by
  intro items
  induction items with
  | nil => intro c; simp [scrapeLoop]
  | cons it rest ih =>
    intro c
    by_cases h : flag c = true <;> simp only [scrapeLoop, h, if_true, if_false, Bool.false_eq_true]
    · simp
    · have hge : c + 1 ≤ (scrapeLoop flag detail (c + 1) rest).1 :=
        scrapeLoop_start_le flag detail rest (c + 1)
      have hs : (scrapeLoop flag detail (c + 1) rest).1 - c =
          ((scrapeLoop flag detail (c + 1) rest).1 - (c + 1)) + 1 := by omega
      rw [hs]
      simp only [List.take_succ_cons, List.filterMap_cons]
      cases hd : detail it <;> simp [hd, ih (c + 1)]

/-! Claim C9 — the time-windowed read. -/

/-- C9: `get_recent_games` with a 24-hour window returns exactly the stored
rows (of the requested platform) whose `collected_at` is at or after
`now - 24` hours; in particular a record collected 25 hours in the past is
excluded and one collected 23 hours in the past is included. -/
theorem c9_read_recent_window :
    (∀ (db : List DbRow) (now : Nat) (pf : Option Str) (r : DbRow),
      r ∈ get_recent_games db now 24 pf ↔
        r ∈ db ∧ platformMatch pf r = true ∧ now - 24 * 3600 ≤ r.scraped_at) ∧
    get_recent_games [⟨str "n", str "u", str "e", [], str "p", 5 * 3600⟩]
      (30 * 3600) 24 none = [] ∧
    get_recent_games [⟨str "n", str "u", str "e", [], str "p", 7 * 3600⟩]
      (30 * 3600) 24 none = [⟨str "n", str "u", str "e", [], str "p", 7 * 3600⟩] := by
  refine ⟨?_, by decide, by decide⟩
  intro db now pf r
  simp [get_recent_games, mem_sortByTimeDesc, List.mem_filter, and_assoc]

/-! Claim C8 — cooperative cancellation at item boundaries, and the reported
outcome. -/

/-- C8 (amended): the stop flag is read at each item boundary, so when
cancellation is requested during item `k + 1` (the flag reads true at every
boundary from `k + 1` on), at most `k + 1` items are processed and the
processed prefix is exactly the items whose detail step completed — but the
run's final status label is the very same completion label an uncancelled
run gets; no distinct STOPPED outcome is reported. -/
theorem c8_cancellation_item_boundary (flag : Nat → Bool)
    (detail : Str × Str → Option GameRec) (items : List (Str × Str)) (k : Nat)
    (hreq : ∀ c, k + 1 ≤ c → flag c = true) :
    (azRun flag detail items).processed ≤ k + 1 ∧
    (azRun flag detail items).games =
      (items.take (azRun flag detail items).processed).filterMap detail ∧
    (azRun flag detail items).status = (azRun (fun _ => false) detail items).status := by
  refine ⟨scrapeLoop_stops flag detail k hreq items 0 (by omega), ?_, rfl⟩
  have h := scrapeLoop_games flag detail items 0
  simpa [azRun] using h

/-- C8 witness: a ten-item run with cancellation requested during item 3
(flag true from boundary 3 on) satisfies the amended claim with `k = 2`. -/
theorem c8_cancellation_item_boundary_witness :
    (azRun (fun c => decide (3 ≤ c)) (fun _ => some ⟨str "n", str "u", str "e", [], none, none⟩)
        (List.replicate 10 (str "n", str "u"))).processed ≤ 3 ∧
    (azRun (fun c => decide (3 ≤ c)) (fun _ => some ⟨str "n", str "u", str "e", [], none, none⟩)
        (List.replicate 10 (str "n", str "u"))).games =
      ((List.replicate 10 ((str "n", str "u") : Str × Str)).take
          (azRun (fun c => decide (3 ≤ c))
            (fun _ => some ⟨str "n", str "u", str "e", [], none, none⟩)
            (List.replicate 10 (str "n", str "u"))).processed).filterMap
        (fun _ => some ⟨str "n", str "u", str "e", [], none, none⟩) ∧
    (azRun (fun c => decide (3 ≤ c)) (fun _ => some ⟨str "n", str "u", str "e", [], none, none⟩)
        (List.replicate 10 (str "n", str "u"))).status =
      (azRun (fun _ => false) (fun _ => some ⟨str "n", str "u", str "e", [], none, none⟩)
        (List.replicate 10 (str "n", str "u"))).status :=
  c8_cancellation_item_boundary (fun c => decide (3 ≤ c))
    (fun _ => some ⟨str "n", str "u", str "e", [], none, none⟩)
    (List.replicate 10 (str "n", str "u")) 2 (fun _ hc => decide_eq_true hc)

/-- C8 counterexample: with ten candidates and cancellation requested after
item 3, the run indeed stops early (3 items processed versus 10 for an
uncancelled run), yet its reported status is identical to the uncancelled
run's completion label — the code never reports a distinct STOPPED outcome,
contradicting the claim. -/
theorem c8_no_stopped_outcome_cex :
    (azRun (fun c => decide (3 ≤ c)) (fun _ => some ⟨str "n", str "u", str "e", [], none, none⟩)
        (List.replicate 10 (str "n", str "u"))).processed = 3 ∧
    (azRun (fun _ => false) (fun _ => some ⟨str "n", str "u", str "e", [], none, none⟩)
        (List.replicate 10 (str "n", str "u"))).processed = 10 ∧
    (azRun (fun c => decide (3 ≤ c)) (fun _ => some ⟨str "n", str "u", str "e", [], none, none⟩)
        (List.replicate 10 (str "n", str "u"))).status =
      (azRun (fun _ => false) (fun _ => some ⟨str "n", str "u", str "e", [], none, none⟩)
        (List.replicate 10 (str "n", str "u"))).status :=
  ⟨by decide, by decide, rfl⟩

/-! Claim C7 — persistence failures are not surfaced. -/

theorem save_to_databaseF_attempts (fails : List Str) (now : Nat) :
    ∀ (games : List GameRec) (db : List DbRow) (a : Nat),
      (games.foldl
        (fun (p : List DbRow × Nat) g => (insertOrReplaceF fails p.1 (mkRow now g), p.2 + 1))
        (db, a)).2 = a + games.length := by
  intro games
  induction games with
  | nil => intro db a; simp
  | cons g rest ih =>
    intro db a
    simp only [List.foldl_cons, ih, List.length_cons]
    omega

theorem save_to_databaseF_mem (fails : List Str) (now : Nat) :
    ∀ (games : List GameRec) (db : List DbRow) (a : Nat) (r : DbRow),
      r ∈ (games.foldl
        (fun (p : List DbRow × Nat) g => (insertOrReplaceF fails p.1 (mkRow now g), p.2 + 1))
        (db, a)).1 →
      r ∈ db ∨ fails.contains r.url = false := by
  intro games
  induction games with
  | nil => intro db a r hr; exact Or.inl (by simpa using hr)
  | cons g rest ih =>
    intro db a r hr
    rcases ih (insertOrReplaceF fails db (mkRow now g)) (a + 1) r hr with h | h
    · by_cases hf : (mkRow now g).url ∈ fails
      · exact Or.inl (by simpa [insertOrReplaceF, List.elem_iff, hf] using h)
      · simp only [insertOrReplaceF, List.elem_iff] at h
        rw [if_neg hf] at h
        simp only [insertOrReplace, List.mem_append, List.mem_filter,
          List.mem_singleton] at h
        rcases h with ⟨h1, _⟩ | h1
        · exact Or.inl h1
        · refine Or.inr ?_
          rw [h1]
          simpa [List.elem_iff] using hf
    · exact Or.inr h

/-- C7 (amended): a storage write failure is swallowed inside the write, not
surfaced: against a backend whose inserts fail for the listed URLs, `write`
still returns the very same stats dict as a fully successful write (records
counted as saved even when their row was dropped), every row actually stored
either pre-existed or had a non-failing insert, and each kept record's
insert is attempted exactly once — no retry. -/
theorem c7_write_failures_not_surfaced (fails : List Str) (games : List GameRec)
    (platform : Option Str) (db : List DbRow) (now : Nat) :
    (save_gamesF fails games platform db now).1 = (save_games games platform db now).1 ∧
    (∀ r ∈ (save_gamesF fails games platform db now).2.1,
      r ∈ db ∨ fails.contains r.url = false) ∧
    (save_gamesF fails games platform db now).2.2 =
      (if ((games.filter usableGame).map (fillGame platform now)).isEmpty then 0
       else (dedupLoop (existingNamesFor platform db)
          ((games.filter usableGame).map (fillGame platform now))).1.length) := by
  refine ⟨?_, ?_, ?_⟩
  · by_cases hv : ((games.filter usableGame).map (fillGame platform now)).isEmpty = true <;>
      simp [save_gamesF, save_games, save_with_deduplicationF, save_with_deduplication, hv]
  · intro r hr
    by_cases hv : ((games.filter usableGame).map (fillGame platform now)).isEmpty = true
    · simp only [save_gamesF, hv, if_true] at hr
      exact Or.inl hr
    · simp only [save_gamesF, hv, if_false, Bool.false_eq_true,
        save_with_deduplicationF] at hr
      by_cases hn : (dedupLoop (existingNamesFor platform db)
          ((games.filter usableGame).map (fillGame platform now))).1.isEmpty = true
      · rw [if_pos hn] at hr
        exact Or.inl hr
      · rw [if_neg (by simp [hn])] at hr
        exact save_to_databaseF_mem fails now _ db 0 r hr
  · by_cases hv : ((games.filter usableGame).map (fillGame platform now)).isEmpty = true
    · simp [save_gamesF, hv]
    · simp only [save_gamesF, hv, if_false, Bool.false_eq_true, save_with_deduplicationF]
      by_cases hn : (dedupLoop (existingNamesFor platform db)
          ((games.filter usableGame).map (fillGame platform now))).1.isEmpty = true
      · rw [if_pos hn]
        simp [List.isEmpty_iff.mp hn]
      · rw [if_neg (by simp [hn])]
        unfold save_to_databaseF
        simpa using save_to_databaseF_attempts fails now _ db 0

/-- C7 counterexample: one valid record whose row insert fails at the
backend — the caller of `write` receives the ordinary success stats
(`saved = 1`), no row is stored, the insert was attempted once, and no
error value or exception reaches the caller; the claimed surfacing of a
`PersistenceError` does not happen. -/
theorem c7_write_failure_swallowed_cex :
    save_gamesF [str "u"] [⟨str "A", str "u", str "e", [], none, some 1⟩]
      (some (str "p")) [] 0 = (⟨1, 0, 1⟩, [], 1) := by decide

/-! Claim C6 — verification of slug-inferred embed URLs. -/

/-- C6 (amended): of the platforms that infer the embed URL from the page's
slug, only ZapGames verifies with HEAD falling back to GET (each accepting
exactly status 200, the fallback used only when HEAD raises); AzGames
accepts the inferred URL only on a HEAD status of 200 with no GET fallback;
GameFlare returns the inferred URL without consulting the network at all
(the result is the slug construction, whatever the oracles answer). -/
theorem c6_verification_per_platform :
    (∀ (h g : Oracle) (url : Str), containsSub (str "/online-game/") url = true →
      gf_extract_embed_url h g none url =
        some (str "https://www.gameflare.com/embed/" ++
          rstripBy (fun c => c == '/') (afterLastSplit (str "/online-game/") url) ++ str "/")) ∧
    (∀ (h g : Oracle) (url : Str), isPre (str "https://azgames.io/") url = true →
      az_extract_embed_url h g none url =
        (if h (str "https://azgames.io/" ++
              pyReplace (str "https://azgames.io/") [] url ++ str ".embed") == some 200
         then some (str "https://azgames.io/" ++
              pyReplace (str "https://azgames.io/") [] url ++ str ".embed")
         else none)) ∧
    (∀ (h g : Oracle) (u : Str),
      zap_verify_embed_url h g u = true ↔
        (h u = some 200 ∨ (h u = none ∧ g u = some 200))) := by
  refine ⟨?_, ?_, ?_⟩
  · intro h g url hurl
    simp [gf_extract_embed_url, hurl]
  · intro h g url hurl
    simp [az_extract_embed_url, hurl]
  · intro h g u
    unfold zap_verify_embed_url
    cases hh : h u with
    | some code => simp [hh]
    | none =>
      cases hg : g u with
      | some code => simp [hh, hg]
      | none => simp [hh, hg]

/-- C6 witness: concrete instances — a GameFlare page with failing oracles
still yields the inferred URL, an AzGames page with a 200 HEAD yields it,
and the ZapGames verifier accepts a URL whose HEAD raises but whose GET
returns 200. -/
theorem c6_verification_per_platform_witness :
    gf_extract_embed_url (fun _ => none) (fun _ => none) none
        (str "https://www.gameflare.com/online-game/dino/") =
      some (str "https://www.gameflare.com/embed/" ++
        rstripBy (fun c => c == '/')
          (afterLastSplit (str "/online-game/") (str "https://www.gameflare.com/online-game/dino/")) ++
        str "/") ∧
    az_extract_embed_url (fun _ => some 200) (fun _ => none) none
        (str "https://azgames.io/subway-moto") =
      (if (fun _ => (some 200 : Option Nat)) (str "https://azgames.io/" ++
            pyReplace (str "https://azgames.io/") [] (str "https://azgames.io/subway-moto") ++
            str ".embed") == some 200
       then some (str "https://azgames.io/" ++
            pyReplace (str "https://azgames.io/") [] (str "https://azgames.io/subway-moto") ++
            str ".embed")
       else none) ∧
    zap_verify_embed_url (fun _ => none) (fun _ => some 200) (str "x") = true :=
  ⟨(c6_verification_per_platform.1 (fun _ => none) (fun _ => none)
      (str "https://www.gameflare.com/online-game/dino/") (by decide)),
   (c6_verification_per_platform.2.1 (fun _ => some 200) (fun _ => none)
      (str "https://azgames.io/subway-moto") (by decide)),
   ((c6_verification_per_platform.2.2 (fun _ => none) (fun _ => some 200) (str "x")).mpr
      (Or.inr ⟨rfl, rfl⟩))⟩

/-- C6 counterexample: GameFlare's slug-inferred URL is returned even though
every HEAD and GET in the environment fails (no verification is attempted),
and AzGames returns nothing when HEAD raises even though a GET would have
returned 200 (no GET fallback exists) — both contradict the claimed
HEAD-then-GET verification of inferred URLs. -/
theorem c6_unverified_inference_cex :
    gf_extract_embed_url (fun _ => none) (fun _ => none) none
        (str "https://www.gameflare.com/online-game/dinosaur-island-survival/") =
      some (str "https://www.gameflare.com/embed/dinosaur-island-survival/") ∧
    az_extract_embed_url (fun _ => none) (fun _ => some 200) none
        (str "https://azgames.io/subway-moto") = none :=
  ⟨rfl, rfl⟩

/-! Claim C1 — discovery-time name deduplication. -/

theorem armorListLoop_not_in_existing (flag : Nat → Bool) :
    ∀ (items : List ArmorItem) (n : Nat) (existing pu : List Str) (c : Str × Str),
      c ∈ armorListLoop flag n existing pu items → normalize_game_name c.1 ∉ existing := by
  intro items
  induction items with
  | nil =>
    intro n ex pu c h
    simp [armorListLoop] at h
  | cons it rest ih =>
    intro n ex pu c h
    simp only [armorListLoop] at h
    split at h
    · simp at h
    · split at h
      · exact ih _ _ _ c h
      · split at h
        · exact ih _ _ _ c h
        · split at h
          · exact ih _ _ _ c h
          · split at h
            · exact ih _ _ _ c h
            · split at h
              · split at h
                · exact ih _ _ _ c h
                · rcases List.mem_cons.mp h with hc | hc
                  · rename_i nm _ _ hnotin
                    intro habs
                    exact hnotin (by
                      subst hc
                      simpa [List.elem_iff] using habs)
                  · intro habs
                    exact ih _ _ _ c hc (List.mem_cons_of_mem _ habs)
              · exact ih _ _ _ c h

/-- C1 (amended): only the ArmorGames listing filters discovered candidates
against stored names at discovery time: every candidate it returns has a
normalised name (case-folded, non-alphanumerics stripped — modelled from the
spec, since `normalize_game_name` is absent from the sources) different from
every stored record's normalised name, across all platforms; and the
normalisation does identify "subway moto!!" with "Subway Moto".  The AzGames
listing performs no such filtering (see the counterexample). -/
theorem c1_armor_listing_filters_known_names :
    (∀ (flag : Nat → Bool) (db : List DbRow) (items : List ArmorItem) (c : Str × Str),
      c ∈ armor_get_all_games_list flag db items →
        normalize_game_name c.1 ∉ db.map (fun r => normalize_game_name r.name)) ∧
    normalize_game_name (str "subway moto!!") = normalize_game_name (str "Subway Moto") := by
  refine ⟨?_, by decide⟩
  intro flag db items c h
  exact armorListLoop_not_in_existing flag items 0 _ [] c h

/-- C1 witness: with "Subway Moto" stored from another platform, the
candidate "subway moto!!" on the ArmorGames listing is filtered out — it is
not among the returned candidates. -/
theorem c1_armor_listing_filters_known_names_witness :
    ((str "subway moto!!", str "https://armorgames.com/subway-moto-game/18000") : Str × Str) ∉
      armor_get_all_games_list (fun _ => false)
        [⟨str "Subway Moto", str "u0", str "e", [], str "azgames.io", 1⟩]
        [⟨true, some (str "/subway-moto-game/18000"), some (str "subway moto!!"), [],
          false, none, none⟩] :=
  fun h =>
    c1_armor_listing_filters_known_names.1 (fun _ => false)
      [⟨str "Subway Moto", str "u0", str "e", [], str "azgames.io", 1⟩]
      [⟨true, some (str "/subway-moto-game/18000"), some (str "subway moto!!"), [],
        false, none, none⟩]
      (str "subway moto!!", str "https://armorgames.com/subway-moto-game/18000") h
      (by decide)

/-- C1 counterexample: the AzGames listing consults no store at all — the
candidate "subway moto!!" (whose normalised name equals that of the stored
"Subway Moto") is returned by `get_all_games_list` for detail scraping
whatever the store contains, refuting the claim that every collection run
filters such candidates at discovery time. -/
theorem c1_azgames_listing_no_store_filter_cex :
    az_get_all_games_list (fun _ => false)
        [⟨some (str "/subway-moto"), true, some (str "subway moto!!"), none, none⟩] =
      [(str "subway moto!!", str "https://azgames.io/subway-moto")] ∧
    normalize_game_name (str "subway moto!!") = normalize_game_name (str "Subway Moto") :=
  ⟨by decide, by decide⟩

/-! Claims C3 and C10 — the write filter, the returned stats, and what is
persisted.  Shared lemmas about `dedupLoop` and `save_to_database` first. -/

theorem dedupLoop_stats (games : List GameRec) :
    ∀ ex, (dedupLoop ex games).2.1 + (dedupLoop ex games).2.2 =
      (games.filter (fun g => !(stripWs g.name).isEmpty)).length := by
  induction games with
  | nil => intro ex; simp [dedupLoop]
  | cons g rest ih =>
    intro ex
    by_cases hb : (stripWs g.name).isEmpty = true
    · simp only [dedupLoop, hb, if_true, List.filter_cons]
      have h1 := ih ex
      simp [hb, h1]
    · by_cases hd : ex.contains (toLowerStr (stripWs g.name)) = true
      · simp only [dedupLoop, hb, if_false, Bool.false_eq_true, hd, if_true,
          List.filter_cons]
        have h1 := ih ex
        simp [hb]
        omega
      · simp only [dedupLoop, hb, if_false, Bool.false_eq_true, hd, List.filter_cons]
        have h1 := ih (toLowerStr (stripWs g.name) :: ex)
        simp [hb]
        omega

theorem dedupLoop_kept (games : List GameRec) :
    ∀ (ex : List Str) (g' : GameRec), g' ∈ (dedupLoop ex games).1 →
      g' ∈ games ∧ (stripWs g'.name).isEmpty = false := by
  induction games with
  | nil => intro ex g' h; simp [dedupLoop] at h
  | cons g rest ih =>
    intro ex g' h
    by_cases hb : (stripWs g.name).isEmpty = true
    · simp only [dedupLoop, hb, if_true] at h
      exact ⟨List.mem_cons_of_mem _ (ih ex g' h).1, (ih ex g' h).2⟩
    · by_cases hd : ex.contains (toLowerStr (stripWs g.name)) = true
      · simp only [dedupLoop, hb, if_false, Bool.false_eq_true, hd, if_true] at h
        exact ⟨List.mem_cons_of_mem _ (ih ex g' h).1, (ih ex g' h).2⟩
      · simp only [dedupLoop, hb, if_false, Bool.false_eq_true, hd] at h
        rcases List.mem_cons.mp h with hc | hc
        · subst hc
          exact ⟨List.mem_cons_self _ _, by simpa using hb⟩
        · exact ⟨List.mem_cons_of_mem _ (ih _ g' hc).1, (ih _ g' hc).2⟩

theorem save_to_database_mem (now : Nat) :
    ∀ (games : List GameRec) (db : List DbRow) (r : DbRow),
      r ∈ save_to_database now db games → r ∈ db ∨ ∃ g ∈ games, r = mkRow now g := by
  intro games
  induction games with
  | nil =>
    intro db r h
    exact Or.inl (by simpa [save_to_database] using h)
  | cons g rest ih =>
    intro db r h
    have h' : r ∈ save_to_database now (insertOrReplace db (mkRow now g)) rest := h
    rcases ih _ r h' with hmem | ⟨g', hg', hr⟩
    · simp only [insertOrReplace, List.mem_append, List.mem_filter,
        List.mem_singleton] at hmem
      rcases hmem with ⟨h1, _⟩ | h1
      · exact Or.inl h1
      · exact Or.inr ⟨g, List.mem_cons_self _ _, h1⟩
    · exact Or.inr ⟨g', List.mem_cons_of_mem _ hg', hr⟩

/-- C3 (amended): a record with no usable embed or iframe URL is never
persisted (every stored row either pre-existed or comes from a usable
record) and contributes to neither `saved` nor `duplicates`; but it is
counted in the returned `total` only when the input contains no usable
record at all — otherwise `total` is the number of usable records, not the
length of the input list. -/
theorem c3_invalid_records_never_stored (games : List GameRec) (platform : Option Str)
    (db : List DbRow) (now : Nat) :
    (save_games games platform db now).1.total =
      (if (games.filter usableGame).isEmpty then games.length
       else (games.filter usableGame).length) ∧
    (save_games games platform db now).1.saved + (save_games games platform db now).1.duplicates
        ≤ (games.filter usableGame).length ∧
    (∀ r ∈ (save_games games platform db now).2,
      r ∈ db ∨ ∃ g ∈ games, usableGame g = true ∧ r = mkRow now (fillGame platform now g)) := by
  have hiff : ((games.filter usableGame).map (fillGame platform now)).isEmpty = true ↔
      (games.filter usableGame).isEmpty = true := by
    rw [List.isEmpty_iff, List.isEmpty_iff, List.map_eq_nil_iff]
  refine ⟨?_, ?_, ?_⟩
  · by_cases hv : ((games.filter usableGame).map (fillGame platform now)).isEmpty = true
    · simp [save_games, hv, hiff.mp hv]
    · have hv' : ¬ (games.filter usableGame).isEmpty = true := fun h0 => hv (hiff.mpr h0)
      simp only [save_games]
      rw [if_neg hv, if_neg hv']
      simp [save_with_deduplication]
  · by_cases hv : ((games.filter usableGame).map (fillGame platform now)).isEmpty = true
    · simp [save_games, hv]
    · simp only [save_games]
      rw [if_neg hv]
      simp only [save_with_deduplication]
      rw [dedupLoop_stats]
      exact le_trans (List.length_filter_le _ _) (le_of_eq (List.length_map _ _))
  · intro r hr
    by_cases hv : ((games.filter usableGame).map (fillGame platform now)).isEmpty = true
    · refine Or.inl ?_
      simp only [save_games] at hr
      rw [if_pos hv] at hr
      exact hr
    · simp only [save_games] at hr
      rw [if_neg hv] at hr
      simp only [save_with_deduplication] at hr
      by_cases hn : (dedupLoop (existingNamesFor platform db)
          ((games.filter usableGame).map (fillGame platform now))).1.isEmpty = true
      · rw [if_pos hn] at hr
        exact Or.inl hr
      · rw [if_neg hn] at hr
        rcases save_to_database_mem now _ db r hr with h | ⟨g', hg', hrr⟩
        · exact Or.inl h
        · obtain ⟨hgv, _⟩ := dedupLoop_kept _ _ g' hg'
          obtain ⟨g0, hg0, hfe⟩ := List.mem_map.mp hgv
          obtain ⟨hg0g, hg0u⟩ := List.mem_filter.mp hg0
          exact Or.inr ⟨g0, hg0g, hg0u, by rw [hrr, hfe]⟩

/-- C3 witness: on the concrete input `[bad, good]` (one record with empty
embed and iframe URLs, one usable record) the write's returned total is the
number of usable records. -/
theorem c3_invalid_records_never_stored_witness :
    (save_games [⟨str "Bad", str "ub", [], [], none, some 3⟩,
        ⟨str "Good", str "ug", str "e", [], none, some 3⟩] (some (str "p")) [] 0).1.total =
      (if ([⟨str "Bad", str "ub", [], [], none, some 3⟩,
            (⟨str "Good", str "ug", str "e", [], none, some 3⟩ : GameRec)].filter
              usableGame).isEmpty
       then ([⟨str "Bad", str "ub", [], [], none, some 3⟩,
            (⟨str "Good", str "ug", str "e", [], none, some 3⟩ : GameRec)] : List GameRec).length
       else ([⟨str "Bad", str "ub", [], [], none, some 3⟩,
            (⟨str "Good", str "ug", str "e", [], none, some 3⟩ : GameRec)].filter
              usableGame).length) :=
  (c3_invalid_records_never_stored
    [⟨str "Bad", str "ub", [], [], none, some 3⟩,
     ⟨str "Good", str "ug", str "e", [], none, some 3⟩] (some (str "p")) [] 0).1

/-- C3 counterexample: with the input `[bad, good]` — `bad` having empty
embed and iframe URLs — the write returns `total = 1`, not `2`: the invalid
record is not counted in the returned total, contrary to the claim. -/
theorem c3_total_excludes_invalid_cex :
    (save_games [⟨str "Bad", str "ub", [], [], none, some 3⟩,
        ⟨str "Good", str "ug", str "e", [], none, some 3⟩] (some (str "p")) [] 0).1 =
      ⟨1, 0, 1⟩ := by decide

/-- C10: a record with a usable embed or iframe URL but a blank
(empty/whitespace) name is silently dropped by the write: it is counted in
the returned total (which counts the usable records), contributes to neither
saved nor duplicates — so saved + duplicates is strictly below total — and
no row with a blank name is ever added to the store. -/
theorem c10_blank_name_dropped (games : List GameRec) (platform : Option Str)
    (db : List DbRow) (now : Nat) (g : GameRec)
    (hg : g ∈ games) (hu : usableGame g = true) (hb : (stripWs g.name).isEmpty = true) :
    (save_games games platform db now).1.total = (games.filter usableGame).length ∧
    (save_games games platform db now).1.saved +
        (save_games games platform db now).1.duplicates
      < (save_games games platform db now).1.total ∧
    (∀ r ∈ (save_games games platform db now).2,
      r ∈ db ∨ (stripWs r.name).isEmpty = false) := by
  have hgf : g ∈ games.filter usableGame := List.mem_filter.mpr ⟨hg, hu⟩
  have hne : ¬ (games.filter usableGame) = [] := List.ne_nil_of_mem hgf
  have hv : ¬ ((games.filter usableGame).map (fillGame platform now)).isEmpty = true := by
    rw [List.isEmpty_iff, List.map_eq_nil_iff]
    exact hne
  have htot : (save_games games platform db now).1.total = (games.filter usableGame).length := by
    simp only [save_games]
    rw [if_neg hv]
    simp [save_with_deduplication]
  refine ⟨htot, ?_, ?_⟩
  · rw [htot]
    simp only [save_games]
    rw [if_neg hv]
    simp only [save_with_deduplication]
    rw [dedupLoop_stats]
    rw [← List.length_map (games.filter usableGame) (fillGame platform now)]
    refine List.length_filter_lt_length_iff_exists.mpr ?_
    refine ⟨fillGame platform now g, List.mem_map_of_mem _ hgf, ?_⟩
    simp [fillGame, hb]
  · intro r hr
    simp only [save_games] at hr
    rw [if_neg hv] at hr
    simp only [save_with_deduplication] at hr
    by_cases hn : (dedupLoop (existingNamesFor platform db)
        ((games.filter usableGame).map (fillGame platform now))).1.isEmpty = true
    · rw [if_pos hn] at hr
      exact Or.inl hr
    · rw [if_neg hn] at hr
      rcases save_to_database_mem now _ db r hr with h | ⟨g', hg', hrr⟩
      · exact Or.inl h
      · refine Or.inr ?_
        have hnb := (dedupLoop_kept _ _ g' hg').2
        rw [hrr]
        simpa [mkRow] using hnb

/-- C10 witness: the concrete input of one blank-named usable record and one
named usable record satisfies the claim: total 2, saved + duplicates = 1 < 2,
and the stored rows all carry non-blank names. -/
theorem c10_blank_name_dropped_witness :
    (save_games [⟨str "   ", str "ux", str "e", [], none, some 3⟩,
        ⟨str "Good", str "ug", str "e", [], none, some 3⟩] (some (str "p")) [] 0).1.total =
      ([⟨str "   ", str "ux", str "e", [], none, some 3⟩,
        (⟨str "Good", str "ug", str "e", [], none, some 3⟩ : GameRec)].filter usableGame).length ∧
    (save_games [⟨str "   ", str "ux", str "e", [], none, some 3⟩,
        ⟨str "Good", str "ug", str "e", [], none, some 3⟩] (some (str "p")) [] 0).1.saved +
        (save_games [⟨str "   ", str "ux", str "e", [], none, some 3⟩,
          ⟨str "Good", str "ug", str "e", [], none, some 3⟩] (some (str "p")) [] 0).1.duplicates
      < (save_games [⟨str "   ", str "ux", str "e", [], none, some 3⟩,
          ⟨str "Good", str "ug", str "e", [], none, some 3⟩] (some (str "p")) [] 0).1.total ∧
    (∀ r ∈ (save_games [⟨str "   ", str "ux", str "e", [], none, some 3⟩,
        ⟨str "Good", str "ug", str "e", [], none, some 3⟩] (some (str "p")) [] 0).2,
      r ∈ ([] : List DbRow) ∨ (stripWs r.name).isEmpty = false) :=
  c10_blank_name_dropped
    [⟨str "   ", str "ux", str "e", [], none, some 3⟩,
     ⟨str "Good", str "ug", str "e", [], none, some 3⟩] (some (str "p")) [] 0
    ⟨str "   ", str "ux", str "e", [], none, some 3⟩
    (by decide) (by decide) (by decide)

/-! Claim C2 — upsert semantics of overlapping writes. -/

theorem insertOrReplace_pairwise (db : List DbRow) (r : DbRow)
    (h : db.Pairwise rowKeyDistinct) : (insertOrReplace db r).Pairwise rowKeyDistinct := by
  unfold insertOrReplace
  rw [List.pairwise_append]
  refine ⟨h.sublist (List.filter_sublist _), List.pairwise_singleton _ _, ?_⟩
  intro a ha b hb
  rw [List.mem_singleton] at hb
  subst hb
  have hcond := (List.mem_filter.mp ha).2
  intro hk
  simp [rowKeyDistinct, hk.1, hk.2] at hcond

theorem save_to_database_pairwise (now : Nat) :
    ∀ (games : List GameRec) (db : List DbRow), db.Pairwise rowKeyDistinct →
      (save_to_database now db games).Pairwise rowKeyDistinct := by
  intro games
  induction games with
  | nil => intro db h; exact h
  | cons g rest ih =>
    intro db h
    exact ih (insertOrReplace db (mkRow now g)) (insertOrReplace_pairwise db (mkRow now g) h)

theorem fillGame_name (platform : Option Str) (now : Nat) (g : GameRec) :
    (fillGame platform now g).name = g.name := rfl

/-- C2 (amended): the store maintains at most one row per `(source_url,
platform)` key across any sequence of writes (replace-on-conflict upsert);
but a later write's record reaches that upsert only when its stripped
lower-cased name is not already stored for the platform: a name-new record
replaces the conflicting row (so the row carries the later write's
`collected_at`), while a name-duplicate record is skipped entirely and the
existing row keeps the earlier write's `collected_at`. -/
theorem c2_upsert_unique_rows :
    (∀ (games : List GameRec) (platform : Option Str) (db : List DbRow) (now : Nat),
      db.Pairwise rowKeyDistinct →
        (save_games games platform db now).2.Pairwise rowKeyDistinct) ∧
    (∀ (g : GameRec) (p : Str) (db : List DbRow) (now : Nat),
      usableGame g = true → (stripWs g.name).isEmpty = false →
      (existingNamesFor (some p) db).contains (toLowerStr (stripWs g.name)) = false →
      save_games [g] (some p) db now =
        (⟨1, 0, 1⟩, insertOrReplace db (mkRow now (fillGame (some p) now g)))) ∧
    (∀ (g : GameRec) (p : Str) (db : List DbRow) (now : Nat),
      usableGame g = true → (stripWs g.name).isEmpty = false →
      (existingNamesFor (some p) db).contains (toLowerStr (stripWs g.name)) = true →
      save_games [g] (some p) db now = (⟨0, 1, 1⟩, db)) := by
  refine ⟨?_, ?_, ?_⟩
  · intro games platform db now h
    by_cases hv : ((games.filter usableGame).map (fillGame platform now)).isEmpty = true
    · simp only [save_games]
      rw [if_pos hv]
      exact h
    · simp only [save_games]
      rw [if_neg hv]
      simp only [save_with_deduplication]
      by_cases hn : (dedupLoop (existingNamesFor platform db)
          ((games.filter usableGame).map (fillGame platform now))).1.isEmpty = true
      · rw [if_pos hn]
        exact h
      · rw [if_neg hn]
        exact save_to_database_pairwise now _ db h
  · intro g p db now hu hnb hnew
    simp only [save_games, List.filter_cons, hu, if_true, List.filter_nil, List.map_cons,
      List.map_nil, List.isEmpty_cons, if_false, Bool.false_eq_true, save_with_deduplication,
      dedupLoop, fillGame_name, hnb, hnew, List.isEmpty_cons, save_to_database,
      List.foldl_cons, List.foldl_nil]
    simp
  · intro g p db now hu hnb hdup
    simp only [save_games, List.filter_cons, hu, if_true, List.filter_nil, List.map_cons,
      List.map_nil, List.isEmpty_cons, if_false, Bool.false_eq_true, save_with_deduplication,
      dedupLoop, fillGame_name, hnb, hdup, if_true, List.isEmpty_nil]
    simp

/-- C2 witness: concrete instances of the three amended conjuncts — a write
over the empty (hence key-unique) store stays key-unique; a name-new record
is upserted with its own timestamp; a name-duplicate record is skipped. -/
theorem c2_upsert_unique_rows_witness :
    (save_games [⟨str "A", str "u", str "e", [], none, some 1⟩] (some (str "p")) [] 0).2.Pairwise
        rowKeyDistinct ∧
    save_games [⟨str "B", str "u", str "e", [], none, some 2⟩] (some (str "p"))
        [⟨str "A", str "u", str "e", [], str "p", 1⟩] 0 =
      (⟨1, 0, 1⟩, insertOrReplace [⟨str "A", str "u", str "e", [], str "p", 1⟩]
        (mkRow 0 (fillGame (some (str "p")) 0 ⟨str "B", str "u", str "e", [], none, some 2⟩))) ∧
    save_games [⟨str "A", str "u", str "e", [], none, some 2⟩] (some (str "p"))
        [⟨str "A", str "u", str "e", [], str "p", 1⟩] 0 =
      (⟨0, 1, 1⟩, [⟨str "A", str "u", str "e", [], str "p", 1⟩]) :=
  ⟨c2_upsert_unique_rows.1 [⟨str "A", str "u", str "e", [], none, some 1⟩] (some (str "p")) [] 0
      List.Pairwise.nil,
   c2_upsert_unique_rows.2.1 ⟨str "B", str "u", str "e", [], none, some 2⟩ (str "p")
      [⟨str "A", str "u", str "e", [], str "p", 1⟩] 0 (by decide) (by decide) (by decide),
   c2_upsert_unique_rows.2.2 ⟨str "A", str "u", str "e", [], none, some 2⟩ (str "p")
      [⟨str "A", str "u", str "e", [], str "p", 1⟩] 0 (by decide) (by decide) (by decide)⟩

/-- C2 counterexample: two writes on platform `p` with the same source URL
(and name "A"), the first at time 1 and the second at time 2.  After both
writes the store holds exactly one row for the key, but it carries the
EARLIER write's `collected_at` (1, not 2): the later record was skipped by
the name dedup pass, so the row does not carry the later timestamp as the
claim requires. -/
theorem c2_name_dup_keeps_old_timestamp_cex :
    save_games [⟨str "A", str "u", str "e", [], none, some 2⟩] (some (str "p"))
        (save_games [⟨str "A", str "u", str "e", [], none, some 1⟩] (some (str "p")) [] 0).2 0 =
      (⟨0, 1, 1⟩, [⟨str "A", str "u", str "e", [], str "p", 1⟩]) := by decide

/-! String infrastructure for the URL-normalisation claims. -/

theorem isPre_iff (p : Str) : ∀ s, isPre p s = true ↔ ∃ t, s = p ++ t := by
  induction p with
  | nil => intro s; simp [isPre]
  | cons a as ih =>
    intro s
    cases s with
    | nil => simp [isPre]
    | cons b bs =>
      simp only [isPre, Bool.and_eq_true, beq_iff_eq, ih]
      constructor
      · rintro ⟨hab, t, ht⟩
        exact ⟨t, by rw [List.cons_append, hab, ht]⟩
      · rintro ⟨t, ht⟩
        rw [List.cons_append] at ht
        injection ht with h1 h2
        exact ⟨h1.symm, ⟨t, h2⟩⟩

theorem isPre_append_self (p t : Str) : isPre p (p ++ t) = true :=
  (isPre_iff p (p ++ t)).mpr ⟨t, rfl⟩

theorem isPre_mono_append (p a t : Str) (h : isPre p a = true) : isPre p (a ++ t) = true := by
  obtain ⟨u, rfl⟩ := (isPre_iff p a).mp h
  rw [List.append_assoc]
  exact isPre_append_self p (u ++ t)

theorem containsSub_iff (p : Str) : ∀ s, containsSub p s = true ↔ ∃ a b, s = a ++ p ++ b := by
  intro s
  induction s with
  | nil =>
    simp only [containsSub, List.isEmpty_iff]
    constructor
    · intro h
      exact ⟨[], [], by simp [h]⟩
    · rintro ⟨a, b, hab⟩
      have h0 := hab.symm
      rw [List.append_assoc] at h0
      rcases List.append_eq_nil.mp h0 with ⟨ha, hpb⟩
      rcases List.append_eq_nil.mp hpb with ⟨hp, _⟩
      exact hp
  | cons c rest ih =>
    simp only [containsSub, Bool.or_eq_true, ih, isPre_iff]
    constructor
    · rintro (⟨t, ht⟩ | ⟨a, b, hab⟩)
      · exact ⟨[], t, by simp [ht]⟩
      · exact ⟨c :: a, b, by simp [hab]⟩
    · rintro ⟨a, b, hab⟩
      cases a with
      | nil => exact Or.inl ⟨b, by simpa using hab⟩
      | cons x a' =>
        right
        rw [List.cons_append, List.cons_append] at hab
        injection hab with _ h2
        exact ⟨a', b, h2⟩

theorem containsSub_self (p : Str) : containsSub p p = true :=
  (containsSub_iff p p).mpr ⟨[], [], by simp⟩

theorem containsSub_of_isPre (p s : Str) (h : isPre p s = true) : containsSub p s = true := by
  obtain ⟨t, rfl⟩ := (isPre_iff p s).mp h
  exact (containsSub_iff p _).mpr ⟨[], t, by simp⟩

theorem containsSub_append_left (p a b : Str) (h : containsSub p a = true) :
    containsSub p (a ++ b) = true := by
  obtain ⟨x, y, rfl⟩ := (containsSub_iff p a).mp h
  exact (containsSub_iff p _).mpr ⟨x, y ++ b, by simp⟩

theorem containsSub_append_right (p a b : Str) (h : containsSub p b = true) :
    containsSub p (a ++ b) = true := by
  obtain ⟨x, y, rfl⟩ := (containsSub_iff p b).mp h
  exact (containsSub_iff p _).mpr ⟨a ++ x, y, by simp⟩

theorem containsSub_chars (p s : Str) (h : containsSub p s = true) : ∀ c ∈ p, c ∈ s := by
  obtain ⟨a, b, rfl⟩ := (containsSub_iff p s).mp h
  intro c hc
  exact List.mem_append.mpr (Or.inl (List.mem_append.mpr (Or.inr hc)))

theorem not_containsSub_char (p s : Str) (c : Char) (hc : c ∈ p) (hs : c ∉ s) :
    containsSub p s = false := by
  cases hx : containsSub p s with
  | false => rfl
  | true => exact absurd (containsSub_chars p s hx c hc) hs

theorem containsSub_of_isSuf (p s : Str) (h : isSuf p s = true) : containsSub p s = true := by
  unfold isSuf at h
  obtain ⟨t, ht⟩ := (isPre_iff _ _).mp h
  have hs : s = t.reverse ++ p := by
    have h2 := congrArg List.reverse ht
    simpa [List.reverse_append] using h2
  rw [hs]
  exact containsSub_append_right p _ p (containsSub_self p)

theorem isSuf_append_self (p w : Str) : isSuf p (w ++ p) = true := by
  unfold isSuf
  rw [List.reverse_append]
  exact isPre_append_self _ _

theorem isPre_append_left (p : Str) : ∀ (a b : Str), p.length ≤ a.length →
    isPre p (a ++ b) = isPre p a := by
  induction p with
  | nil => intro a b _; simp [isPre]
  | cons x p' ih =>
    intro a b hl
    cases a with
    | nil => simp at hl
    | cons y a' =>
      rw [List.cons_append]
      simp only [isPre]
      rw [ih a' b (by simp at hl; omega)]

theorem isPre_take_eq : ∀ (a p b : Str), isPre p (a ++ b) = true → a.length ≤ p.length →
    p.take a.length = a := by
  intro a
  induction a with
  | nil => intro p b _ _; simp
  | cons x a' ih =>
    intro p b h hl
    cases p with
    | nil => simp at hl
    | cons y p' =>
      rw [List.cons_append] at h
      simp only [isPre, Bool.and_eq_true, beq_iff_eq] at h
      simp only [List.length_cons, List.take_succ_cons]
      rw [h.1, ih p' b h.2 (by simp at hl; omega)]

theorem pyReplace_append (pat rep : Str) :
    ∀ (a b : Str), cannotStart a pat = true →
      pyReplace pat rep (a ++ b) = a ++ pyReplace pat rep b := by
  intro a
  induction a with
  | nil => intro b _; simp
  | cons c a' ih =>
    intro b h
    rw [cannotStart] at h
    rw [Bool.and_eq_true] at h
    obtain ⟨h1, h2⟩ := h
    rw [List.cons_append, pyReplace_cons, if_neg ?_, ih b h2]
    · rfl
    · intro hcond
      rw [Bool.and_eq_true] at hcond
      obtain ⟨_, hpre⟩ := hcond
      by_cases hll : pat.length ≤ (c :: a').length
      · rw [if_pos hll] at h1
        have heq := isPre_append_left pat (c :: a') b hll
        rw [List.cons_append] at heq
        rw [heq] at hpre
        simp [hpre] at h1
      · rw [if_neg hll] at h1
        have hte := isPre_take_eq (c :: a') pat b
          (by rw [← List.cons_append] at hpre; exact hpre) (by omega)
        simp only [List.length_cons] at hte
        simp [hte] at h1

theorem pyReplace_front (c : Char) (p' rep x : Str) :
    pyReplace (c :: p') rep ((c :: p') ++ x) = rep ++ pyReplace (c :: p') rep x := by
  rw [List.cons_append, pyReplace_cons, if_pos ?_]
  · have hd : (p' ++ x).drop ((c :: p').length - 1) = x := by
      simp only [List.length_cons, Nat.add_sub_cancel]
      exact List.drop_left p' x
    rw [hd]
  · rw [Bool.and_eq_true]
    refine ⟨by simp, ?_⟩
    rw [← List.cons_append]
    exact isPre_append_self _ _

theorem pyReplace_id_of_not_contains (pat rep : Str) :
    ∀ s, containsSub pat s = false → pyReplace pat rep s = s := by
  intro s
  induction s with
  | nil => intro _; rfl
  | cons c rest ih =>
    intro h
    rw [containsSub] at h
    rw [Bool.or_eq_false_iff] at h
    rw [pyReplace_cons, if_neg (by simp [h.1]), ih h.2]

theorem collapseFuel_id (s : Str) (h : containsSub ihDup s = false) :
    ∀ n, collapseFuel n s = s := by
  intro n
  cases n with
  | zero => rfl
  | succ n => simp [collapseFuel, h]

theorem takeBefore_eq_self (pat : Str) : ∀ s, containsSub pat s = false →
    takeBefore pat s = s := by
  intro s
  induction s with
  | nil => intro _; rfl
  | cons c rest ih =>
    intro h
    rw [containsSub] at h
    rw [Bool.or_eq_false_iff] at h
    rw [takeBefore, if_neg (by simp [h.1]), ih h.2]

theorem takeBefore_isPre (pat : Str) : ∀ s, ∃ t, takeBefore pat s ++ t = s := by
  intro s
  induction s with
  | nil => exact ⟨[], rfl⟩
  | cons c rest ih =>
    rw [takeBefore]
    split
    · exact ⟨c :: rest, rfl⟩
    · obtain ⟨t, ht⟩ := ih
      exact ⟨t, by rw [List.cons_append, ht]⟩

theorem not_containsSub_takeBefore (pat : Str) (hne : pat ≠ []) :
    ∀ s, containsSub pat (takeBefore pat s) = false := by
  intro s
  induction s with
  | nil =>
    show containsSub pat [] = false
    simpa [containsSub, List.isEmpty_iff] using hne
  | cons c rest ih =>
    rw [takeBefore]
    split
    · simpa [containsSub, List.isEmpty_iff] using hne
    · rename_i hnp
      have hpre : isPre pat (c :: takeBefore pat rest) = false := by
        cases hp : isPre pat (c :: takeBefore pat rest) with
        | false => rfl
        | true =>
          exfalso
          obtain ⟨t, ht⟩ := takeBefore_isPre pat rest
          have hmono := isPre_mono_append pat (c :: takeBefore pat rest) t hp
          rw [List.cons_append, ht] at hmono
          exact hnp hmono
      rw [containsSub, hpre, ih]
      rfl

theorem takeBefore_append (c₀ : Char) (p' : Str) :
    ∀ (a b : Str), c₀ ∉ a → takeBefore (c₀ :: p') (a ++ (c₀ :: p') ++ b) = a := by
  intro a
  induction a with
  | nil =>
    intro b _
    have hshape : ([] : Str) ++ (c₀ :: p') ++ b = c₀ :: (p' ++ b) := by simp
    rw [hshape, takeBefore, if_pos ?_]
    rw [← List.cons_append]
    exact isPre_append_self _ b
  | cons x a' ih =>
    intro b hx
    rw [List.cons_append, List.cons_append, takeBefore, if_neg ?_]
    · rw [ih b (fun hmem => hx (List.mem_cons_of_mem _ hmem))]
    · intro hcond
      simp only [isPre, Bool.and_eq_true, beq_iff_eq] at hcond
      exact hx (hcond.1 ▸ List.mem_cons_self _ _)

theorem rstripBy_of_rev_head (p : Char → Bool) (s : Str) (c : Char) (zs : Str)
    (hrev : s.reverse = c :: zs) (hc : p c = false) : rstripBy p s = s := by
  unfold rstripBy
  rw [hrev, List.dropWhile_cons, hc]
  simp [← hrev]

theorem rstripBy_append_of_fix (p : Char → Bool) (a b : Str) (ha : rstripBy p a = a) :
    rstripBy p (a ++ b) = a ++ rstripBy p b := by
  unfold rstripBy at ha ⊢
  rw [List.reverse_append, List.dropWhile_append]
  by_cases hb : (b.reverse.dropWhile p).isEmpty = true
  · rw [if_pos hb]
    rw [List.isEmpty_iff.mp hb]
    simp [ha]
  · rw [if_neg hb]
    simp

/-! Claim C4 — idempotence of the URL cleaner. -/

/-- C4 (amended): the cleaner is idempotent on every input it maps to the
none result, and on every input whose returned URL is already in canonical
cleaned shape — matching one of the two itch.zone patterns, fixed under the
escape/strip pass, free of `?v=` and of duplicated `/index.html`, free of
excluded keywords, containing lower-case `itch.zone` and starting with a
lower-case `http` scheme.  (Idempotence fails in general: see the
counterexample, where a doubly-escaped `&amp;amp;` survives one pass and is
rewritten again by the next.) -/
theorem c4_normalize_idempotent_on_clean_outputs :
    (∀ u : Str, clean_iframe_url u = none →
      clean_iframe_url_opt (clean_iframe_url u) = clean_iframe_url u) ∧
    (∀ u v : Str, clean_iframe_url u = some v →
      (matchesPatternOne v || matchesPatternTwo v) = true →
      cleanEsc v = v →
      containsSub (str "?v=") v = false →
      containsSub ihDup v = false →
      excludesHit v = false →
      containsSub (str "itch.zone") v = true →
      isPre (str "http") v = true →
      clean_iframe_url_opt (clean_iframe_url u) = clean_iframe_url u) := by
  constructor
  · intro u h
    rw [h]
    rfl
  · intro u v hu h1 h2 h3 h4 h5 h6 h7
    rw [hu]
    have hne : v.isEmpty = false := by
      cases v with
      | nil => simp [isPre, str] at h7
      | cons c rest => rfl
    have hstrip : stripVParam v = v := by
      unfold stripVParam
      rw [if_neg (by simp [h3])]
    have hsuf : isSuf ihDup v = false := by
      cases hx : isSuf ihDup v with
      | false => rfl
      | true => exact absurd (containsSub_of_isSuf _ _ hx) (by simp [h4])
    have hslash : containsSub ihDupSlash v = false := by
      cases hx : containsSub ihDupSlash v with
      | false => rfl
      | true =>
        exfalso
        obtain ⟨a, b, hab⟩ := (containsSub_iff _ _).mp hx
        have hd : containsSub ihDup v = true := by
          rw [hab]
          refine (containsSub_iff _ _).mpr ⟨a, '/' :: b, ?_⟩
          rw [show ihDupSlash = ihDup ++ ['/'] from by decide]
          simp
        simp [hd] at h4
    have hdf : dupFixStage v = v := by
      unfold dupFixStage
      rw [if_neg (by simp [hsuf]), if_neg (by simp [hslash])]
    have hcol : collapseDupLoop v = v := collapseFuel_id v h4 v.length
    have hitch : itchStage (cleanEsc v) = v := by
      rw [h2]
      unfold itchStage
      rw [if_pos h6, hstrip, hdf, hcol]
    have hhttp : ensureHttp v = v := by
      unfold ensureHttp
      rw [if_pos h7]
    simp only [clean_iframe_url_opt, clean_iframe_url, classifyStage, hne, hitch, hhttp,
      h1, h5, h6, Bool.false_eq_true, Bool.not_true, Bool.not_false, if_false, if_true]

/-- C4 witness: a canonical itch.zone URL satisfies every side condition of
the amended claim, and the cleaner is idempotent on it. -/
theorem c4_normalize_idempotent_on_clean_outputs_witness :
    clean_iframe_url_opt
        (clean_iframe_url (str "https://html-classic.itch.zone/html/123/mygame/index.html")) =
      clean_iframe_url (str "https://html-classic.itch.zone/html/123/mygame/index.html") :=
  c4_normalize_idempotent_on_clean_outputs.2
    (str "https://html-classic.itch.zone/html/123/mygame/index.html")
    (str "https://html-classic.itch.zone/html/123/mygame/index.html")
    (by decide) (by decide) (by decide) (by decide) (by decide) (by decide) (by decide)
    (by decide)

/-- C4 counterexample: the doubly-escaped input
`https://foo.itch.zone/a&amp;amp;b` is cleaned to `.../a&amp;b`, which a
second application of the cleaner rewrites again to `.../a&b` — so
`normalize (normalize u) ≠ normalize u`, refuting idempotence as claimed. -/
theorem c4_normalize_not_idempotent_cex :
    clean_iframe_url_opt (clean_iframe_url (str "https://foo.itch.zone/a&amp;amp;b")) ≠
      clean_iframe_url (str "https://foo.itch.zone/a&amp;amp;b") := by decide

/-! Claim C5 — which duplications and which parameters the cleaner handles.
Support lemmas about `reps` and the collapse loop. -/

theorem reps_succ_right : ∀ n, reps (n + 1) = reps n ++ ihSeg := by
  intro n
  induction n with
  | zero => simp [reps]
  | succ n ih =>
    show ihSeg ++ reps (n + 1) = (ihSeg ++ reps n) ++ ihSeg
    rw [ih, List.append_assoc]

theorem mem_reps : ∀ (m : Nat) (c : Char), c ∈ reps m → c ∈ ihSeg := by
  intro m
  induction m with
  | zero => intro c h; simp [reps] at h
  | succ m ih =>
    intro c h
    simp only [reps] at h
    rcases List.mem_append.mp h with h | h
    · exact h
    · exact ih c h

theorem length_reps : ∀ m, (reps m).length = 11 * m := by
  intro m
  induction m with
  | zero => rfl
  | succ m ih =>
    simp only [reps, List.length_append, ih]
    have : ihSeg.length = 11 := by decide
    omega

theorem dup_eq_seg_seg : ihDup = ihSeg ++ ihSeg := by decide

theorem reps_two_step : ∀ a, reps (a + 2) = ihDup ++ reps a := by
  intro a
  show ihSeg ++ (ihSeg ++ reps a) = ihDup ++ reps a
  rw [← List.append_assoc, ← dup_eq_seg_seg]

theorem reps_replace : ∀ m, pyReplace ihDup ihSeg (reps m) = reps ((m + 1) / 2) := by
  intro m
  induction m using Nat.strong_induction_on with
  | _ m ih =>
    rcases m with _ | m1
    · decide
    · rcases m1 with _ | a
      · decide
      · rw [reps_two_step a]
        rw [show ihDup = '/' :: str "index.html/index.html" from by decide]
        rw [pyReplace_front]
        rw [show ('/' :: str "index.html/index.html" : Str) = ihDup from by decide]
        rw [ih a (by omega)]
        show reps ((a + 1) / 2 + 1) = reps ((a + 2 + 1) / 2)
        congr 1
        omega

theorem collapseFuel_reps (W : Str) (hW : cannotStart W ihDup = true)
    (h1 : containsSub ihDup (W ++ reps 1) = false) :
    ∀ (n m : Nat), 1 ≤ m → m ≤ n → collapseFuel n (W ++ reps m) = W ++ reps 1 := by
  intro n
  induction n with
  | zero => intro m hm1 hm2; omega
  | succ n ih =>
    intro m hm1 hm2
    rcases Nat.lt_or_ge m 2 with hm | hm
    · have hm' : m = 1 := by omega
      subst hm'
      exact collapseFuel_id _ h1 (n + 1)
    · obtain ⟨a, rfl⟩ : ∃ a, m = a + 2 := ⟨m - 2, by omega⟩
      have hcon : containsSub ihDup (W ++ reps (a + 2)) = true := by
        refine containsSub_append_right _ _ _ (containsSub_of_isPre _ _ ?_)
        rw [reps_two_step a]
        exact isPre_append_self _ _
      simp only [collapseFuel]
      rw [if_pos hcon, pyReplace_append _ _ _ _ hW, reps_replace]
      exact ih ((a + 2 + 1) / 2) (by omega) (by omega)

theorem collapseDupLoop_reps (W : Str) (hW : cannotStart W ihDup = true)
    (h1 : containsSub ihDup (W ++ reps 1) = false) (m : Nat) (hm : 1 ≤ m) :
    collapseDupLoop (W ++ reps m) = W ++ reps 1 := by
  unfold collapseDupLoop
  refine collapseFuel_reps W hW h1 _ m hm ?_
  rw [List.length_append, length_reps]
  omega

theorem cleanEsc_eq_self (s : Str)
    (h1 : containsSub (str "&quot;") s = false)
    (h2 : containsSub (str "&amp;") s = false)
    (h3 : containsSub (str "&lt;") s = false)
    (h4 : containsSub (str "&gt;") s = false)
    (h5 : containsSub (str "\\/") s = false)
    (h6 : containsSub (str "\\\"") s = false)
    (h7 : containsSub (str "\\") s = false)
    (hws1 : s.dropWhile isPyWs = s) (hws2 : rstripBy isPyWs s = s)
    (hq1 : s.dropWhile isQuoteChar = s) (hq2 : rstripBy isQuoteChar s = s) :
    cleanEsc s = s := by
  unfold cleanEsc escStage stripWs stripQuotes
  rw [pyReplace_id_of_not_contains _ _ s h1, pyReplace_id_of_not_contains _ _ s h2,
    pyReplace_id_of_not_contains _ _ s h3, pyReplace_id_of_not_contains _ _ s h4,
    pyReplace_id_of_not_contains _ _ s h5, pyReplace_id_of_not_contains _ _ s h6,
    pyReplace_id_of_not_contains _ _ s h7, hws1, hws2, hq1, hq2]

theorem clean_reps_family (k : Nat) :
    clean_iframe_url (str "https://html-classic.itch.zone/html/5/game" ++ reps (k + 2)) =
      some (str "https://html-classic.itch.zone/html/5/game/index.html") := by
  have hamp : ('&' : Char) ∉ str "https://html-classic.itch.zone/html/5/game" ++ reps (k + 2) := by
    intro hmem
    rcases List.mem_append.mp hmem with h | h
    · exact absurd h (by decide)
    · exact absurd (mem_reps _ _ h) (by decide)
  have hbs : ('\\' : Char) ∉ str "https://html-classic.itch.zone/html/5/game" ++ reps (k + 2) := by
    intro hmem
    rcases List.mem_append.mp hmem with h | h
    · exact absurd h (by decide)
    · exact absurd (mem_reps _ _ h) (by decide)
  have hqm : ('?' : Char) ∉ str "https://html-classic.itch.zone/html/5/game" ++ reps (k + 2) := by
    intro hmem
    rcases List.mem_append.mp hmem with h | h
    · exact absurd h (by decide)
    · exact absurd (mem_reps _ _ h) (by decide)
  have hcons : str "https://html-classic.itch.zone/html/5/game" ++ reps (k + 2) =
      'h' :: (str "ttps://html-classic.itch.zone/html/5/game" ++ reps (k + 2)) := by
    rw [show (str "https://html-classic.itch.zone/html/5/game" : Str) =
      'h' :: str "ttps://html-classic.itch.zone/html/5/game" from by decide, List.cons_append]
  have hshape : str "https://html-classic.itch.zone/html/5/game" ++ reps (k + 2) =
      (str "https://html-classic.itch.zone/html/5/game" ++ reps (k + 1)) ++ ihSeg := by
    rw [reps_succ_right (k + 1), ← List.append_assoc]
  have hrev : (str "https://html-classic.itch.zone/html/5/game" ++ reps (k + 2)).reverse =
      'l' :: (str "mth.xedni/" ++
        (str "https://html-classic.itch.zone/html/5/game" ++ reps (k + 1)).reverse) := by
    rw [hshape, List.reverse_append,
      show ihSeg.reverse = 'l' :: str "mth.xedni/" from by decide, List.cons_append]
  have hEsc : cleanEsc (str "https://html-classic.itch.zone/html/5/game" ++ reps (k + 2)) =
      str "https://html-classic.itch.zone/html/5/game" ++ reps (k + 2) := by
    refine cleanEsc_eq_self _ ?_ ?_ ?_ ?_ ?_ ?_ ?_ ?_ ?_ ?_ ?_
    · exact not_containsSub_char _ _ '&' (by decide) hamp
    · exact not_containsSub_char _ _ '&' (by decide) hamp
    · exact not_containsSub_char _ _ '&' (by decide) hamp
    · exact not_containsSub_char _ _ '&' (by decide) hamp
    · exact not_containsSub_char _ _ '\\' (by decide) hbs
    · exact not_containsSub_char _ _ '\\' (by decide) hbs
    · exact not_containsSub_char _ _ '\\' (by decide) hbs
    · rw [hcons, List.dropWhile_cons, show isPyWs 'h' = false from by decide]
      simp
    · exact rstripBy_of_rev_head _ _ _ _ hrev (by decide)
    · rw [hcons, List.dropWhile_cons, show isQuoteChar 'h' = false from by decide]
      simp
    · exact rstripBy_of_rev_head _ _ _ _ hrev (by decide)
  have hin : containsSub (str "itch.zone")
      (str "https://html-classic.itch.zone/html/5/game" ++ reps (k + 2)) = true :=
    containsSub_append_left _ _ _ (by decide)
  have hqv : containsSub (str "?v=")
      (str "https://html-classic.itch.zone/html/5/game" ++ reps (k + 2)) = false :=
    not_containsSub_char _ _ '?' (by decide) hqm
  have hsv : stripVParam (str "https://html-classic.itch.zone/html/5/game" ++ reps (k + 2)) =
      str "https://html-classic.itch.zone/html/5/game" ++ reps (k + 2) := by
    unfold stripVParam
    rw [if_neg (by simp [hqv])]
  have hsplit : str "https://html-classic.itch.zone/html/5/game" ++ reps (k + 2) =
      (str "https://html-classic.itch.zone/html/5/game" ++ reps k) ++ ihDup := by
    rw [reps_succ_right (k + 1), reps_succ_right k, dup_eq_seg_seg]
    simp [List.append_assoc]
  have hsuf : isSuf ihDup (str "https://html-classic.itch.zone/html/5/game" ++ reps (k + 2)) =
      true := by
    rw [hsplit]
    exact isSuf_append_self _ _
  have hrepl := pyReplace_append ihDup ihSeg
    (str "https://html-classic.itch.zone/html/5/game") (reps (k + 2)) (by decide)
  have hdf : dupFixStage (str "https://html-classic.itch.zone/html/5/game" ++ reps (k + 2)) =
      str "https://html-classic.itch.zone/html/5/game" ++ reps ((k + 2 + 1) / 2) := by
    unfold dupFixStage
    rw [if_pos hsuf, hrepl, reps_replace]
  have hcol : collapseDupLoop
      (str "https://html-classic.itch.zone/html/5/game" ++ reps ((k + 2 + 1) / 2)) =
      str "https://html-classic.itch.zone/html/5/game" ++ reps 1 :=
    collapseDupLoop_reps _ (by decide) (by decide) _ (by omega)
  have hitch : itchStage (str "https://html-classic.itch.zone/html/5/game" ++ reps (k + 2)) =
      str "https://html-classic.itch.zone/html/5/game" ++ reps 1 := by
    unfold itchStage
    rw [if_pos hin, hsv, hdf, hcol]
  have hne : (str "https://html-classic.itch.zone/html/5/game" ++ reps (k + 2)).isEmpty =
      false := by
    rw [hcons]
    rfl
  unfold clean_iframe_url
  rw [if_neg (by simp [hne]), hEsc, hitch]
  decide

theorem itchStage_vparam (u : Str) :
    itchStage (str "https://html-classic.itch.zone/html/5/game/index.html?v=" ++ u) =
      str "https://html-classic.itch.zone/html/5/game/index.html" := by
  have hin : containsSub (str "itch.zone")
      (str "https://html-classic.itch.zone/html/5/game/index.html?v=" ++ u) = true :=
    containsSub_append_left _ _ u (by decide)
  have hqv : containsSub (str "?v=")
      (str "https://html-classic.itch.zone/html/5/game/index.html?v=" ++ u) = true :=
    containsSub_append_left _ _ u (by decide)
  have hsv : stripVParam (str "https://html-classic.itch.zone/html/5/game/index.html?v=" ++ u) =
      str "https://html-classic.itch.zone/html/5/game/index.html" := by
    unfold stripVParam
    rw [if_pos hqv,
      show (str "https://html-classic.itch.zone/html/5/game/index.html?v=" : Str) =
        str "https://html-classic.itch.zone/html/5/game/index.html" ++ ('?' :: str "v=")
        from by decide,
      show (str "?v=" : Str) = '?' :: str "v=" from by decide]
    exact takeBefore_append '?' (str "v=") _ u (by decide)
  unfold itchStage
  rw [if_pos hin, hsv]
  decide

theorem clean_vparam_family (t : Str) :
    clean_iframe_url (str "https://html-classic.itch.zone/html/5/game/index.html?v=" ++ t) =
      some (str "https://html-classic.itch.zone/html/5/game/index.html") := by
  have hAhead : (str "https://html-classic.itch.zone/html/5/game/index.html?v=" : Str) =
      'h' :: str "ttps://html-classic.itch.zone/html/5/game/index.html?v=" := by decide
  have hesc : escStage (str "https://html-classic.itch.zone/html/5/game/index.html?v=" ++ t) =
      str "https://html-classic.itch.zone/html/5/game/index.html?v=" ++ escStage t := by
    unfold escStage
    rw [pyReplace_append (str "&quot;") (str "\"")
        (str "https://html-classic.itch.zone/html/5/game/index.html?v=") t (by decide),
      pyReplace_append (str "&amp;") (str "&")
        (str "https://html-classic.itch.zone/html/5/game/index.html?v=") _ (by decide),
      pyReplace_append (str "&lt;") (str "<")
        (str "https://html-classic.itch.zone/html/5/game/index.html?v=") _ (by decide),
      pyReplace_append (str "&gt;") (str ">")
        (str "https://html-classic.itch.zone/html/5/game/index.html?v=") _ (by decide),
      pyReplace_append (str "\\/") (str "/")
        (str "https://html-classic.itch.zone/html/5/game/index.html?v=") _ (by decide),
      pyReplace_append (str "\\\"") (str "\"")
        (str "https://html-classic.itch.zone/html/5/game/index.html?v=") _ (by decide),
      pyReplace_append (str "\\") []
        (str "https://html-classic.itch.zone/html/5/game/index.html?v=") _ (by decide)]
  have hdwWs : ∀ x : Str,
      (str "https://html-classic.itch.zone/html/5/game/index.html?v=" ++ x).dropWhile isPyWs =
        str "https://html-classic.itch.zone/html/5/game/index.html?v=" ++ x := by
    intro x
    rw [hAhead, List.cons_append, List.dropWhile_cons, show isPyWs 'h' = false from by decide]
    simp
  have hdwQc : ∀ x : Str,
      (str "https://html-classic.itch.zone/html/5/game/index.html?v=" ++ x).dropWhile
          isQuoteChar =
        str "https://html-classic.itch.zone/html/5/game/index.html?v=" ++ x := by
    intro x
    rw [hAhead, List.cons_append, List.dropWhile_cons,
      show isQuoteChar 'h' = false from by decide]
    simp
  have hstripWs : ∀ x : Str,
      stripWs (str "https://html-classic.itch.zone/html/5/game/index.html?v=" ++ x) =
        str "https://html-classic.itch.zone/html/5/game/index.html?v=" ++ rstripBy isPyWs x := by
    intro x
    unfold stripWs
    rw [hdwWs x, rstripBy_append_of_fix isPyWs _ x (by decide)]
  have hstripQ : ∀ x : Str,
      stripQuotes (str "https://html-classic.itch.zone/html/5/game/index.html?v=" ++ x) =
        str "https://html-classic.itch.zone/html/5/game/index.html?v=" ++
          rstripBy isQuoteChar x := by
    intro x
    unfold stripQuotes
    rw [hdwQc x, rstripBy_append_of_fix isQuoteChar _ x (by decide)]
  have hce : cleanEsc (str "https://html-classic.itch.zone/html/5/game/index.html?v=" ++ t) =
      str "https://html-classic.itch.zone/html/5/game/index.html?v=" ++
        rstripBy isQuoteChar (rstripBy isPyWs (escStage t)) := by
    unfold cleanEsc
    rw [hesc, hstripWs (escStage t), hstripQ (rstripBy isPyWs (escStage t))]
  have hne : (str "https://html-classic.itch.zone/html/5/game/index.html?v=" ++ t).isEmpty =
      false := by
    rw [hAhead, List.cons_append]
    rfl
  unfold clean_iframe_url
  rw [if_neg (by simp [hne]), hce, itchStage_vparam]
  decide

theorem clean_embed_noV (u : Str) : containsSub (str "?v=") (clean_embed_url u) = false := by
  unfold clean_embed_url
  by_cases he : u.isEmpty = true
  · rw [if_pos he, List.isEmpty_iff.mp he]
    decide
  · rw [if_neg he]
    by_cases hc : containsSub (str "?v=") u = true
    · rw [if_pos hc]
      exact not_containsSub_takeBefore _ (by decide) u
    · rw [if_neg hc]
      simpa using hc

/-- C5 (amended): the duplicate handling is specific, not generic.  On
itch.zone URLs any run of `k ≥ 2` consecutive trailing copies of the
literal segment `/index.html` is collapsed to exactly one, and everything
from the first `?v=` parameter on is stripped; the ArmorGames
`clean_embed_url` likewise guarantees only that `?v=` is absent from its
output.  (Generic repeated segments and generic query parameters pass
through unchanged: see the counterexample.) -/
theorem c5_indexhtml_collapse_and_v_param :
    (∀ k : Nat,
      clean_iframe_url (str "https://html-classic.itch.zone/html/5/game" ++ reps (k + 2)) =
        some (str "https://html-classic.itch.zone/html/5/game/index.html")) ∧
    (∀ t : Str,
      clean_iframe_url (str "https://html-classic.itch.zone/html/5/game/index.html?v=" ++ t) =
        some (str "https://html-classic.itch.zone/html/5/game/index.html")) ∧
    (∀ u : Str, containsSub (str "?v=") (clean_embed_url u) = false) :=
  ⟨clean_reps_family, clean_vparam_family, clean_embed_noV⟩

/-- C5 counterexample: a duplicated generic path segment (`/a/b/b`) and a
generic tracking parameter (`?utm_source=1`) both survive
`clean_iframe_url` unchanged, and `clean_embed_url` leaves a duplicated
segment on an ArmorGames CDN URL in place — the cleaners do not remove
"duplicate path segments" or "query parameters" in general, only the
specific `/index.html` duplication and the `?v=` parameter. -/
theorem c5_generic_segments_not_collapsed_cex :
    clean_iframe_url (str "https://x.itch.zone/a/b/b") = some (str "https://x.itch.zone/a/b/b") ∧
    clean_iframe_url (str "https://x.itch.zone/a?utm_source=1") =
      some (str "https://x.itch.zone/a?utm_source=1") ∧
    clean_embed_url (str "https://a.cache.armorgames.com/g/g") =
      str "https://a.cache.armorgames.com/g/g" := by
  decide

end GameScout
